import Mathlib

/-! # OUI registry (`oui.go`): shallow embedding and verified properties

The Go package keeps three process-wide variables (`ouis`, `loaded`,
`loading`) and one file on disk (`oui.csv`).  They are modelled by an explicit
`State` that every operation receives and returns.  Calls are sequential: one
goroutine runs at a time, so a busy-wait on a flag that nobody else can clear
never ends (`Outcome.spin`).

Go strings are modelled by their rune sequences (Lean `String`); formatted
error values are modelled by the exact text `fmt.Errorf` produces.  Results of
calls that leave the package (`os.Open`, `os.OpenFile`, `http.Get`, the lexing
done by `encoding/csv`) are supplied by an `Env`.  Output written with
`fmt.Printf`/`fmt.Println` is not modelled.
-/

namespace Oui

/-! ## Runes and strings -/

/-- Rune-level case mapping used by `strings.ToUpper`.  ASCII `a`-`z` go to
`A`-`Z`; U+0131 and U+017F are the only runes outside ASCII whose upper case is
an ASCII letter (`I` and `S`).  Every other rune has an upper case outside
ASCII; it is represented by the rune itself, which the only consumer
(`ASCII_Hex_Digit`) cannot tell apart. -/
def toUpperRune (c : Char) : Char :=
  if 97 ≤ c.toNat ∧ c.toNat ≤ 122 then Char.ofNat (c.toNat - 32)
  else if c.toNat = 0x131 then Char.ofNat 73
  else if c.toNat = 0x17F then Char.ofNat 83
  else c

/-- Go `strings.ToUpper`: the case mapping applied to every rune. -/
def ToUpper (s : String) : String := ⟨s.data.map toUpperRune⟩

/-- Go `unicode.Is(unicode.ASCII_Hex_Digit, ch)`: the ranges `0-9`, `A-F`, `a-f`. -/
def ASCII_Hex_Digit (ch : Char) : Bool :=
  (48 ≤ ch.toNat && ch.toNat ≤ 57) || (65 ≤ ch.toNat && ch.toNat ≤ 70) ||
    (97 ≤ ch.toNat && ch.toNat ≤ 102)

/-- Go `unicode.IsSpace`: the runes `strings.TrimSpace` strips. -/
def isSpace (c : Char) : Bool :=
  (9 ≤ c.toNat && c.toNat ≤ 13) || c.toNat = 0x20 || c.toNat = 0x85 || c.toNat = 0xA0 ||
    c.toNat = 0x1680 || (0x2000 ≤ c.toNat && c.toNat ≤ 0x200A) || c.toNat = 0x2028 ||
    c.toNat = 0x2029 || c.toNat = 0x202F || c.toNat = 0x205F || c.toNat = 0x3000

/-- Go `strings.TrimSpace`: drop leading and trailing white space. -/
def TrimSpace (s : String) : String :=
  ⟨((s.data.dropWhile isSpace).reverse.dropWhile isSpace).reverse⟩

/-- Go `len(s)` on a string: its length in bytes (UTF-8). -/
def len (s : String) : Nat := s.utf8ByteSize

/-! ## Error values

`fmt.Errorf` builds an error whose only content is its text; `%d` prints a
decimal number and `%s` the text of the wrapped error. -/

/-- Error of line 101: `fmt.Errorf("OUI Load|Open File: %s", err)`. -/
def errOpenFile (cause : String) : String := "OUI Load|Open File: " ++ cause

/-- Error of line 110: `fmt.Errorf("OUI Load|CSV Read Header: %s", err)`. -/
def errReadHeader (cause : String) : String := "OUI Load|CSV Read Header: " ++ cause

/-- Error of line 114:
`fmt.Errorf("OUI Load|Invalid CSV: Columns required: 4, found: %d", len(header))`. -/
def errInvalidCsv (found : Nat) : String :=
  "OUI Load|Invalid CSV: Columns required: 4, found: " ++ toString found

/-- Error of line 123: `fmt.Errorf("OUI Load|CSV Read Row: %s", err)`. -/
def errReadRow (cause : String) : String := "OUI Load|CSV Read Row: " ++ cause

/-- Error of line 156:
`fmt.Errorf("OUI Query|Parse Address: Hex digits required: 6, found: %d", len(oui))`. -/
def errParseAddress (found : Nat) : String :=
  "OUI Query|Parse Address: Hex digits required: 6, found: " ++ toString found

/-- Error of line 162:
`fmt.Errorf("OUI Query|Find Assignment: Assignment not found for %s", oui)`. -/
def errFindAssignment (oui : String) : String :=
  "OUI Query|Find Assignment: Assignment not found for " ++ oui

/-- A Go `error` met at a call site that tests it against the sentinel `io.EOF`. -/
inductive GoError where
  | EOF
  | other (msg : String)
deriving DecidableEq, Repr

/-- The `Error()` text of an error value. -/
def GoError.Error : GoError → String
  | .EOF => "EOF"
  | .other msg => msg

/-! ## Data model -/

/-- The Go `Organization` struct (lines 19-22). -/
structure Organization where
  Name : String
  Address : String
deriving DecidableEq, Repr

/-- The zero value of `Organization`, which a map read of a missing key yields. -/
def Organization.zero : Organization := ⟨"", ""⟩

/-- A Go `map[string]Organization`, kept as an association list with one
entry per key. -/
abbrev OuiMap := List (String × Organization)

/-- Map read `m[k]` in its two-value form: `some v` when the key is present. -/
def OuiMap.get (m : OuiMap) (k : String) : Option Organization := List.lookup k m

/-- Map write `m[k] = v`: the entry for `k` is replaced or created. -/
def OuiMap.set (m : OuiMap) (k : String) (v : Organization) : OuiMap :=
  (k, v) :: m.filter (fun p => p.1 != k)

/-- The Go `atomicBool` (line 24): an `int32` holding 0 or 1. -/
structure atomicBool where
  val : Int
deriving DecidableEq, Repr

/-- Method `Set` (lines 26-28): store 1. -/
def atomicBool.Set (_ab : atomicBool) : atomicBool := ⟨1⟩

/-- Method `Unset` (lines 30-32): store 0. -/
def atomicBool.Unset (_ab : atomicBool) : atomicBool := ⟨0⟩

/-- Method `IsSet` (lines 34-36): the stored value equals 1. -/
def atomicBool.IsSet (ab : atomicBool) : Bool := ab.val == 1

/-- Contents of a file or of a response body. -/
abbrev Bytes := List (Fin 256)

/-- The package variables `ouis`, `loaded`, `loading` (lines 38-42) together
with the file `oui.csv` (`none` while it does not exist). -/
structure State where
  ouis : OuiMap
  loaded : atomicBool
  loading : atomicBool
  file : Option Bytes
deriving DecidableEq, Repr

/-- The state at process start: empty map, both flags zero. -/
def State.init (file : Option Bytes) : State := ⟨[], ⟨0⟩, ⟨0⟩, file⟩

/-- How a call ends: it returns a value, it panics, or it never returns. -/
inductive Outcome (α : Type) where
  | ret (val : α) (st : State)
  | panic (msg : String) (st : State)
  | spin
deriving DecidableEq, Repr

/-! ## The environment -/

/-- One record as lexed by `encoding/csv` before the field-count rule is
applied: the line it starts on, its fields, and the lexing or read error met
while reading it, if any. -/
structure RawRecord where
  line : Nat
  fields : List String
  err : Option String
deriving DecidableEq, Repr

/-- What `http.Get` hands back on success: the announced `ContentLength`
(`-1` when unknown), the bytes the body delivers, and the error the body
reports once those bytes are used up (`none` for a clean `io.EOF`). -/
structure Response where
  ContentLength : Int
  Body : Bytes
  bodyErr : Option String
deriving DecidableEq, Repr

/-- Results of the calls that leave the package.
* `openErr`: failure of the first `os.Open` on an existing file (line 94);
* `createErr`: failure of `os.OpenFile` in `Download` (line 47);
* `httpGet`: result of `http.Get` (line 58);
* `reopenErr`: failure of the second `os.Open`, after `Download` (line 98);
* `csv`: the records `encoding/csv` lexes out of a file's bytes. -/
structure Env where
  openErr : Option String
  createErr : Option String
  httpGet : Except String Response
  reopenErr : Option String
  csv : Bytes → List RawRecord

/-- Result of `os.Open`. -/
inductive OpenResult where
  | ok (content : Bytes)
  | notExist (msg : String)
  | fail (msg : String)
deriving DecidableEq, Repr

/-- The call `os.Open(OUI_FILE)`: a missing file gives an error for which
`os.IsNotExist` holds; an existing file opens unless the environment says
otherwise. -/
def osOpen (err : Option String) (file : Option Bytes) : OpenResult :=
  match file with
  | none => .notExist "open oui.csv: no such file or directory"
  | some content =>
    match err with
    | some e => .fail e
    | none => .ok content

/-! ## `encoding/csv` reader -/

/-- The part of `csv.Reader` that `Load` relies on: `FieldsPerRecord` and the
records not yet read. -/
structure Reader where
  FieldsPerRecord : Int
  input : List RawRecord
deriving DecidableEq, Repr

/-- The call `csv.NewReader`: `FieldsPerRecord` starts at 0. -/
def NewReader (input : List RawRecord) : Reader := ⟨0, input⟩

/-- Text of a `csv.ParseError` wrapping `csv.ErrFieldCount`. -/
def errFieldCount (line : Nat) : String :=
  "record on line " ++ toString line ++ ": wrong number of fields"

/-- Method `Reader.Read`: at the end of input `(nil, io.EOF)`; otherwise the next
record with its error.  With `FieldsPerRecord > 0` a record of another length
that has no error of its own gets the field-count error; with
`FieldsPerRecord == 0` the length of this record becomes the expected one. -/
def Reader.Read (r : Reader) : (List String × Option GoError) × Reader :=
  match r.input with
  | [] => (([], some .EOF), r)
  | raw :: rest =>
    let err : Option GoError := raw.err.map GoError.other
    if r.FieldsPerRecord > 0 then
      if (raw.fields.length : Int) ≠ r.FieldsPerRecord ∧ err = none then
        ((raw.fields, some (.other (errFieldCount raw.line))), ⟨r.FieldsPerRecord, rest⟩)
      else
        ((raw.fields, err), ⟨r.FieldsPerRecord, rest⟩)
    else if r.FieldsPerRecord = 0 then
      ((raw.fields, err), ⟨raw.fields.length, rest⟩)
    else
      ((raw.fields, err), ⟨r.FieldsPerRecord, rest⟩)

/-! ## `Download` (lines 44-81) -/

/-- The call `io.CopyN(dst, src, n)`: the bytes copied to `dst`, the error returned and
what is left of `src`.  A full chunk gives no error; a short one gives the
source's error, `io.EOF` when the source simply ended. -/
def CopyN (src : Bytes) (srcErr : Option String) (n : Nat) : Bytes × Option GoError × Bytes :=
  let chunk := src.take n
  if chunk.length = n then (chunk, none, src.drop n)
  else
    match srcErr with
    | none => (chunk, some .EOF, src.drop n)
    | some e => (chunk, some (.other e), src.drop n)

/-- How the copy loop of `Download` ends; `out` is what went to the file. -/
inductive CopyResult where
  | done (out : Bytes)
  | panic (msg : String) (out : Bytes)
  | fuelOut
deriving DecidableEq, Repr

/-- The loop of lines 67-77.  `out` collects the bytes written so far.  Each
round that goes on has copied 1024 bytes, so `src.length + 1` rounds are
always enough (`Download.copy_fuel`). -/
def Download.copy : Nat → Int → Int → Bytes → Option String → Bytes → CopyResult
  | 0, _, _, _, _, _ => .fuelOut
  | fuel + 1, writtenBytes, totalBytes, src, srcErr, out =>
    if writtenBytes < totalBytes then
      match CopyN src srcErr 1024 with
      | (chunk, some .EOF, _) => .done (out ++ chunk)
      | (chunk, some (.other e), _) => .panic e (out ++ chunk)
      | (chunk, none, rest) =>
        Download.copy fuel (writtenBytes + chunk.length) totalBytes rest srcErr (out ++ chunk)
    else .done out

/-- Writing `out` from offset 0 into a file opened with `O_WRONLY|O_CREATE`
(no truncation): bytes of the old content beyond `out` stay. -/
def overwrite (old out : Bytes) : Bytes := out ++ old.drop out.length

/-- Function `Download`: create or open the file, fetch, copy.  Each failure panics. -/
def Download (env : Env) (st : State) : Outcome Unit :=
  match env.createErr with
  | some e => .panic e st
  | none =>
    let old := st.file.getD []
    let st := { st with file := some old }
    match env.httpGet with
    | .error e => .panic e st
    | .ok res =>
      match Download.copy (res.Body.length + 1) 0 res.ContentLength res.Body res.bodyErr [] with
      | .done out => .ret () { st with file := some (overwrite old out) }
      | .panic e out => .panic e { st with file := some (overwrite old out) }
      | .fuelOut => .spin

/-! ## `Load` (lines 83-134) -/

/-- Lines 94-103: open `oui.csv`, downloading it first when it does not
exist.  The value is the content of the opened file, or the text of the open
error. -/
def Load.openFile (env : Env) (st : State) : Outcome (Except String Bytes) :=
  match osOpen env.openErr st.file with
  | .ok content => .ret (.ok content) st
  | .fail e => .ret (.error e) st
  | .notExist _ =>
    match Download env st with
    | .ret _ st1 =>
      match osOpen env.reopenErr st1.file with
      | .ok content => .ret (.ok content) st1
      | .fail e => .ret (.error e) st1
      | .notExist e => .ret (.error e) st1
    | .panic e st1 => .panic e st1
    | .spin => .spin

/-- How the row loop ends; `ouis` is the map as the loop left it. -/
inductive RowsResult where
  | done (ouis : OuiMap)
  | error (msg : String) (ouis : OuiMap)
  | panic (msg : String) (ouis : OuiMap)
deriving DecidableEq, Repr

/-- The loop of lines 117-129 over the records still to be read, with the
reader's current `FieldsPerRecord`.  Every round calls `reader.Read()`;
`io.EOF` leaves the loop, any other error returns it, and a record is written
into the map under `line[1]`.  An index beyond the record panics. -/
def Load.rows : List RawRecord → Int → OuiMap → RowsResult
  | [], _, ouis => .done ouis
  | raw :: rest, fpr, ouis =>
    match Reader.Read ⟨fpr, raw :: rest⟩ with
    | ((_, some .EOF), _) => .done ouis
    | ((_, some (.other e)), _) => .error e ouis
    | ((line, none), reader) =>
      match line.get? 1, line.get? 2, line.get? 3 with
      | some key, some name, some address =>
        Load.rows rest reader.FieldsPerRecord (ouis.set key ⟨TrimSpace name, TrimSpace address⟩)
      | _, _, _ => .panic "index out of range" ouis

/-- Lines 106-133: read and check the header, run the row loop, and on
success set `loaded` and clear `loading`. -/
def Load.parse (input : List RawRecord) (st : State) : Outcome (Option String) :=
  match Reader.Read (NewReader input) with
  | ((_, some err), _) => .ret (some (errReadHeader err.Error)) st
  | ((header, none), reader) =>
    if header.length ≠ 4 then .ret (some (errInvalidCsv header.length)) st
    else
      match Load.rows reader.input reader.FieldsPerRecord st.ouis with
      | .error e ouis => .ret (some (errReadRow e)) { st with ouis := ouis }
      | .panic e ouis => .panic e { st with ouis := ouis }
      | .done ouis =>
        .ret none { st with ouis := ouis, loaded := st.loaded.Set, loading := st.loading.Unset }

/-- Function `Load`.  With `loaded` set it returns `nil` at once.  With `loading` set
it waits for the flag to clear, which no sequential caller ever sees happen.
Otherwise it sets `loading`, opens the file and parses it. -/
def Load (env : Env) (st : State) : Outcome (Option String) :=
  if st.loaded.IsSet then .ret none st
  else if st.loading.IsSet then .spin
  else
    let st := { st with loading := st.loading.Set }
    match Load.openFile env st with
    | .ret (.error e) st1 => .ret (some (errOpenFile e)) st1
    | .ret (.ok content) st1 => Load.parse (env.csv content) st1
    | .panic e st1 => .panic e st1
    | .spin => .spin

/-! ## `Query` (lines 136-167) -/

/-- The loop of lines 146-153 over the runes of the upper-cased address:
`oui` grows by each hex digit and the loop stops once `len(oui) == 6`. -/
def Query.scan : List Char → String → String
  | [], oui => oui
  | ch :: rest, oui =>
    if ASCII_Hex_Digit ch then
      if len (oui ++ String.singleton ch) = 6 then oui ++ String.singleton ch
      else Query.scan rest (oui ++ String.singleton ch)
    else Query.scan rest oui

/-- The variable `oui` after the loop: the scan of `strings.ToUpper(address)`
started from the empty string. -/
def Query.oui (address : String) : String := Query.scan (ToUpper address).data ""

/-- Lines 144-166, run once the registry is available: derive `oui`, then
read the map.  The named result `org` stays the zero value on every error. -/
def Query.find (ouis : OuiMap) (address : String) : Organization × Option String :=
  let oui := Query.oui address
  if len oui ≠ 6 then (Organization.zero, some (errParseAddress (len oui)))
  else
    match ouis.get oui with
    | none => (Organization.zero, some (errFindAssignment oui))
    | some org => (org, none)

/-- Function `Query`: load when `loaded` is not set, give up on a load error, then
normalise the address and look it up. -/
def Query (env : Env) (address : String) (st : State) : Outcome (Organization × Option String) :=
  if !st.loaded.IsSet then
    match Load env st with
    | .ret (some err) st1 => .ret (Organization.zero, some err) st1
    | .ret none st1 => .ret (Query.find st1.ouis address) st1
    | .panic e st1 => .panic e st1
    | .spin => .spin
  else .ret (Query.find st.ouis address) st

/-! ## Vocabulary of the specification -/

/-- A character of the normalised alphabet `[0-9A-F]`. -/
def isUpperHex (c : Char) : Bool :=
  (48 ≤ c.toNat && c.toNat ≤ 57) || (65 ≤ c.toNat && c.toNat ≤ 70)

/-- The specification's normalised digit sequence: upper-case every character
of the address and keep those in `[0-9A-F]`, in input order. -/
def hexDigits (address : String) : List Char :=
  (address.data.map toUpperRune).filter isUpperHex

/-- The specification's prefix: the first 6 elements of `hexDigits`. -/
def specOui (address : String) : String := ⟨(hexDigits address).take 6⟩

/-- Number of hex digits (`0-9`, `a-f`, `A-F`) present in the address. -/
def hexCount (address : String) : Nat := address.data.countP ASCII_Hex_Digit

/-- ASCII lower-casing of one character. -/
def lowerRune (c : Char) : Char :=
  if 65 ≤ c.toNat ∧ c.toNat ≤ 90 then Char.ofNat (c.toNat + 32) else c

/-- ASCII upper-casing of one character. -/
def upperRune (c : Char) : Char :=
  if 97 ≤ c.toNat ∧ c.toNat ≤ 122 then Char.ofNat (c.toNat - 32) else c

/-- The address with every ASCII letter lower-cased. -/
def lowerASCII (address : String) : String := ⟨address.data.map lowerRune⟩

/-- The address with every ASCII letter upper-cased. -/
def upperASCII (address : String) : String := ⟨address.data.map upperRune⟩

/-- The key a data row is stored under: `field[1]`, verbatim. -/
def RawRecord.key (r : RawRecord) : String := r.fields.getD 1 ""

/-- The record a data row is stored as: `field[2]` and `field[3]`, trimmed. -/
def RawRecord.org (r : RawRecord) : Organization :=
  ⟨TrimSpace (r.fields.getD 2 ""), TrimSpace (r.fields.getD 3 "")⟩

/-- A record that lexes cleanly into exactly four fields. -/
def RawRecord.fourFields (r : RawRecord) : Prop := r.err = none ∧ r.fields.length = 4

instance (r : RawRecord) : Decidable r.fourFields := by
  unfold RawRecord.fourFields; infer_instance

/-- Starting in `st`, `Load` gets to read `table`: after `loading` is set the
file opens (downloaded first when missing) leaving state `st1`, and its
content lexes to `table`. -/
def Load.reads (env : Env) (st : State) (table : List RawRecord) (st1 : State) : Prop :=
  ∃ content, Load.openFile env { st with loading := st.loading.Set } = .ret (.ok content) st1 ∧
    env.csv content = table

/-- The states reached from `st` by finitely many sequential `Load` and
`Query` calls that returned, each in an environment of its own. -/
inductive Later (st : State) : State → Prop where
  | refl : Later st st
  | load {st1 st2 : State} (env : Env) (v : Option String) :
      Later st st1 → Load env st1 = .ret v st2 → Later st st2
  | query {st1 st2 : State} (env : Env) (address : String) (r : Organization × Option String) :
      Later st st1 → Query env address st1 = .ret r st2 → Later st st2

/-- The error `reader.Read()` returns for a data row once four fields are
expected: the row's own lexing error, or the field-count error when it lexes
cleanly into another number of fields; `none` for a row that is accepted. -/
def RawRecord.rowError (r : RawRecord) : Option String :=
  match r.err with
  | some e => some e
  | none => if r.fields.length ≠ 4 then some (errFieldCount r.line) else none

/-! ## Goroutines entering `Load` (lines 84-92)

Each use of an `atomicBool` is one atomic action; between two actions of one
goroutine any other goroutine may act. -/

/-- Where a goroutine stands in `Load`: before the test of line 84, before the
test of line 87, in the wait loop of line 88, before `loading.Set()` of line
92, in the load body (lines 94-133), or returned without having loaded. -/
inductive Pc where
  | checkLoaded
  | checkLoading
  | wait
  | setLoading
  | body
  | returned
deriving DecidableEq, Repr

/-- One atomic action of a goroutine standing at `pc`.  A goroutine in the
load body or already returned takes no further action here. -/
def Load.entryStep (st : State) : Pc → State × Pc
  | .checkLoaded => if st.loaded.IsSet then (st, .returned) else (st, .checkLoading)
  | .checkLoading => if st.loading.IsSet then (st, .wait) else (st, .setLoading)
  | .wait => if st.loading.IsSet then (st, .wait) else (st, .returned)
  | .setLoading => ({ st with loading := st.loading.Set }, .body)
  | .body => (st, .body)
  | .returned => (st, .returned)

/-- The shared state and the position of every goroutine. -/
structure Conc where
  st : State
  pcs : List Pc
deriving DecidableEq, Repr

/-- Goroutine `i` takes its next atomic action. -/
def Conc.step (c : Conc) (i : Nat) : Conc :=
  match c.pcs.get? i with
  | none => c
  | some pc => ⟨(Load.entryStep c.st pc).1, c.pcs.set i (Load.entryStep c.st pc).2⟩

/-- Run a schedule: the goroutines act in the listed order. -/
def Conc.run (schedule : List Nat) (c : Conc) : Conc := schedule.foldl Conc.step c

/-- Number of goroutines executing the load body. -/
def Conc.loaders (c : Conc) : Nat := c.pcs.countP (fun pc => pc == Pc.body)

/-! ## Sample data -/

/-- The header row of the registry file. -/
def sampleHeader : RawRecord :=
  ⟨1, ["Registry", "Assignment", "Organization Name", "Organization Address"], none⟩

/-- The data row of the specification's parser example. -/
def exampleRow : RawRecord := ⟨2, ["MA-L", "001122", " Example Corp ", " 123 Main St "], none⟩

/-- A later data row with the key of `exampleRow`. -/
def secondRow : RawRecord := ⟨3, ["MA-L", "001122", " Second Corp ", " 9 High St "], none⟩

/-- A data row with another key. -/
def acmeRow : RawRecord := ⟨4, ["MA-L", "AABBCC", "Acme", "1 Road"], none⟩

/-- A registry table: the header and three data rows, two of them sharing a key. -/
def sampleTable : List RawRecord := [sampleHeader, exampleRow, secondRow, acmeRow]

/-- An environment in which `oui.csv` opens and lexes to the given records. -/
def envOf (table : List RawRecord) : Env := ⟨none, none, .error "unreachable", none, fun _ => table⟩

/-- The state at process start with an (already present) file `oui.csv`. -/
def coldState : State := State.init (some [])

/-- The state `coldState` once `Load` has set `loading`. -/
def loadingState : State := ⟨[], ⟨0⟩, ⟨1⟩, some []⟩

/-- A Loaded registry: what `Load` makes of `sampleTable`. -/
def loadedState : State :=
  ⟨[("AABBCC", ⟨"Acme", "1 Road"⟩), ("001122", ⟨"Second Corp", "9 High St"⟩)], ⟨1⟩, ⟨0⟩, some []⟩

/-- The state at process start when `oui.csv` does not exist. -/
def absentState : State := State.init none

/-- The state `absentState` once `Load` has set `loading`. -/
def absentLoading : State := ⟨[], ⟨0⟩, ⟨1⟩, none⟩

/-- A data row that lexes cleanly into three fields. -/
def shortRow : RawRecord := ⟨3, ["MA-L", "AABBCC", "Acme"], none⟩

/-- A data row on which the lexer reports an error. -/
def brokenRow : RawRecord := ⟨3, [], some "record on line 3: parse error"⟩

/-- An environment in which an existing `oui.csv` cannot be opened. -/
def envOpenFails : Env :=
  ⟨some "open oui.csv: permission denied", none, .error "unreachable", none, fun _ => []⟩

/-- An environment in which the cache file cannot be created. -/
def envCreateFails : Env :=
  ⟨none, some "open oui.csv: permission denied", .error "unreachable", none, fun _ => []⟩

/-- An environment in which the HTTP GET fails. -/
def envGetFails : Env := ⟨none, none, .error "Get: no route to host", none, fun _ => []⟩

/-- An environment in which the response body breaks off after 3 of the 10
announced bytes. -/
def envCopyFails : Env :=
  ⟨none, none, .ok ⟨10, [1, 2, 3], some "unexpected EOF"⟩, none, fun _ => []⟩

/-- An environment in which the server answers with a 3-byte body of unknown
length (`ContentLength == -1`); a file of these bytes would lex to
`sampleTable`, an empty file to no record. -/
def envUnknownLength : Env :=
  ⟨none, none, .ok ⟨-1, [65, 66, 67], none⟩, none, fun b => if b = [] then [] else sampleTable⟩

/-- An environment in which the server answers with a 3-byte body announced
as 3 bytes. -/
def envKnownLength : Env :=
  ⟨none, none, .ok ⟨3, [65, 66, 67], none⟩, none, fun b => if b = [] then [] else sampleTable⟩

/-! ## Theorems: characters and strings -/

theorem toNat_ofNat_small (n : Nat) (h : n < 0xD800) : (Char.ofNat n).toNat = n := by
  have hv : n.isValidChar := Or.inl h
  unfold Char.ofNat
  rw [dif_pos hv]
  simp only [Char.ofNatAux, Char.toNat, UInt32.toNat, BitVec.toNat_ofNatLt]

theorem utf8Size_ascii (c : Char) (h : c.toNat ≤ 127) : c.utf8Size = 1 := by
  unfold Char.utf8Size
  have hv : c.val ≤ 127 := by
    rw [UInt32.le_def]; simpa [Char.toNat] using h
  simp [hv]

theorem hex_toNat_le (c : Char) (h : ASCII_Hex_Digit c = true) : c.toNat ≤ 127 := by
  simp only [ASCII_Hex_Digit, Bool.or_eq_true, Bool.and_eq_true, decide_eq_true_eq] at h
  omega

/-- Upper-casing does not change whether a rune passes the hex test. -/
theorem hex_toUpperRune (c : Char) : ASCII_Hex_Digit (toUpperRune c) = ASCII_Hex_Digit c := by
  unfold toUpperRune
  split
  · rename_i h
    have h1 : (Char.ofNat (c.toNat - 32)).toNat = c.toNat - 32 :=
      toNat_ofNat_small _ (by omega)
    simp only [ASCII_Hex_Digit, h1]
    rw [Bool.eq_iff_iff]
    simp only [Bool.or_eq_true, Bool.and_eq_true, decide_eq_true_eq]
    omega
  · split
    · rename_i h
      simp only [ASCII_Hex_Digit, h, toNat_ofNat_small 73 (by omega)]
      decide
    · split
      · rename_i h
        simp only [ASCII_Hex_Digit, h, toNat_ofNat_small 83 (by omega)]
        decide
      · rfl

/-- After upper-casing, the hex test and the `[0-9A-F]` test agree. -/
theorem upperHex_toUpperRune (c : Char) : isUpperHex (toUpperRune c) = ASCII_Hex_Digit c := by
  unfold toUpperRune
  split
  · rename_i h
    have h1 : (Char.ofNat (c.toNat - 32)).toNat = c.toNat - 32 :=
      toNat_ofNat_small _ (by omega)
    simp only [ASCII_Hex_Digit, isUpperHex, h1]
    rw [Bool.eq_iff_iff]
    simp only [Bool.or_eq_true, Bool.and_eq_true, decide_eq_true_eq]
    omega
  · split
    · rename_i h
      simp only [ASCII_Hex_Digit, isUpperHex, h, toNat_ofNat_small 73 (by omega)]
      decide
    · split
      · rename_i h
        simp only [ASCII_Hex_Digit, isUpperHex, h, toNat_ofNat_small 83 (by omega)]
        decide
      · rename_i h
        simp only [ASCII_Hex_Digit, isUpperHex]
        rw [Bool.eq_iff_iff]
        simp only [Bool.or_eq_true, Bool.and_eq_true, decide_eq_true_eq]
        omega

theorem len_mk (l : List Char) : len ⟨l⟩ = String.utf8Len l := by
  simp [len, String.utf8ByteSize, String.utf8ByteSize.go_eq]

/-- A string of hex digits has as many bytes as characters. -/
theorem utf8Len_hex (l : List Char) (h : ∀ c ∈ l, ASCII_Hex_Digit c = true) :
    String.utf8Len l = l.length := by
  induction l with
  | nil => rfl
  | cons c cs ih =>
    have hc := utf8Size_ascii c (hex_toNat_le c (h c (List.mem_cons_self c cs)))
    have hcs := ih (fun d hd => h d (List.mem_cons_of_mem c hd))
    simp [String.utf8Len_cons, hc, hcs]

theorem append_singleton (l : List Char) (c : Char) :
    (⟨l⟩ : String) ++ String.singleton c = ⟨l ++ [c]⟩ := by
  apply String.ext
  simp [String.singleton]

/-- The scan loop, started with fewer than 6 hex digits collected, ends with
the first 6 of the collected digits followed by the hex digits still to come. -/
theorem scan_eq (l acc : List Char) (hacc : ∀ c ∈ acc, ASCII_Hex_Digit c = true)
    (hlen : acc.length < 6) :
    Query.scan l ⟨acc⟩ = ⟨(acc ++ l.filter ASCII_Hex_Digit).take 6⟩ := by
  induction l generalizing acc with
  | nil =>
    simp only [Query.scan, List.filter_nil, List.append_nil]
    rw [List.take_of_length_le (by omega)]
  | cons ch rest ih =>
    unfold Query.scan
    by_cases hch : ASCII_Hex_Digit ch = true
    · have hacc2 : ∀ c ∈ acc ++ [ch], ASCII_Hex_Digit c = true := by
        intro c hc
        rcases List.mem_append.mp hc with h | h
        · exact hacc c h
        · rw [List.mem_singleton.mp h]; exact hch
      have hl : len (⟨acc ++ [ch]⟩ : String) = acc.length + 1 := by
        rw [len_mk, utf8Len_hex _ hacc2]; simp
      simp only [hch, if_true, append_singleton, hl, List.filter_cons_of_pos]
      by_cases h6 : acc.length + 1 = 6
      · rw [if_pos h6]
        have e : acc ++ ch :: List.filter ASCII_Hex_Digit rest
            = (acc ++ [ch]) ++ List.filter ASCII_Hex_Digit rest := by simp
        rw [e, List.take_append_of_le_length (by simp; omega),
          List.take_of_length_le (by simp; omega)]
      · rw [if_neg h6, ih (acc ++ [ch]) hacc2 (by simp; omega)]
        simp
    · have hf : ASCII_Hex_Digit ch = false := by simpa using hch
      rw [if_neg hch, List.filter_cons_of_neg (by simp [hf])]
      exact ih acc hacc hlen

theorem filter_hex_upper (l : List Char) :
    (l.map toUpperRune).filter ASCII_Hex_Digit = (l.map toUpperRune).filter isUpperHex := by
  induction l with
  | nil => rfl
  | cons c cs ih =>
    simp only [List.map_cons, List.filter_cons, hex_toUpperRune, upperHex_toUpperRune, ih]

theorem hexDigits_length (address : String) : (hexDigits address).length = hexCount address := by
  unfold hexDigits hexCount
  rw [List.countP_eq_length_filter]
  generalize address.data = l
  induction l with
  | nil => rfl
  | cons c cs ih =>
    simp only [List.map_cons, List.filter_cons, upperHex_toUpperRune]
    split <;> simp [ih]

theorem hexDigits_hex (address : String) (c : Char) (h : c ∈ hexDigits address) :
    isUpperHex c = true := by
  unfold hexDigits at h
  exact (List.mem_filter.mp h).2

theorem upperHex_hex (c : Char) (h : isUpperHex c = true) : ASCII_Hex_Digit c = true := by
  simp only [isUpperHex, Bool.or_eq_true, Bool.and_eq_true, decide_eq_true_eq] at h
  simp only [ASCII_Hex_Digit, Bool.or_eq_true, Bool.and_eq_true, decide_eq_true_eq]
  omega

/-- The code's `oui` is the specification's prefix, for every address. -/
theorem oui_eq_specOui (address : String) : Query.oui address = specOui address := by
  unfold Query.oui specOui hexDigits ToUpper
  have h := scan_eq (address.data.map toUpperRune) [] (by simp) (by simp)
  rw [filter_hex_upper] at h
  simpa using h

/-- The byte length of `oui` is the number of hex digits found, capped at 6. -/
theorem len_oui (address : String) : len (Query.oui address) = min 6 (hexCount address) := by
  rw [oui_eq_specOui, specOui, len_mk, utf8Len_hex, List.length_take, hexDigits_length]
  intro c hc
  exact upperHex_hex c (hexDigits_hex address c (List.mem_of_mem_take hc))

/-- What lines 144-166 compute, in the specification's terms. -/
theorem find_eq (ouis : OuiMap) (address : String) :
    Query.find ouis address =
      if hexCount address < 6 then (Organization.zero, some (errParseAddress (hexCount address)))
      else
        match ouis.get (specOui address) with
        | none => (Organization.zero, some (errFindAssignment (specOui address)))
        | some org => (org, none) := by
  have hl := len_oui address
  rw [oui_eq_specOui] at hl
  unfold Query.find
  simp only [oui_eq_specOui, hl]
  by_cases h : hexCount address < 6
  · have hm : min 6 (hexCount address) = hexCount address := by omega
    have hne : hexCount address ≠ 6 := by omega
    rw [hm, if_pos hne, if_pos h]
  · have hm : min 6 (hexCount address) = 6 := by omega
    rw [hm, if_neg (by simp), if_neg h]

/-- On a Loaded registry `Query` goes straight to lines 144-166. -/
theorem query_loaded (env : Env) (address : String) (st : State)
    (h : st.loaded.IsSet = true) : Query env address st = .ret (Query.find st.ouis address) st := by
  simp [Query, h]

theorem errFind_ne_errParse (p : String) (n : Nat) : errFindAssignment p ≠ errParseAddress n := by
  intro h
  have h2 := congrArg String.data h
  simp only [errFindAssignment, errParseAddress, String.data_append] at h2
  simp at h2

theorem toUpperRune_lowerRune (c : Char) : toUpperRune (lowerRune c) = toUpperRune c := by
  unfold lowerRune
  split
  · rename_i h
    have h1 : (Char.ofNat (c.toNat + 32)).toNat = c.toNat + 32 :=
      toNat_ofNat_small _ (by omega)
    have h2 : toUpperRune c = c := by
      unfold toUpperRune
      rw [if_neg (by omega), if_neg (by omega), if_neg (by omega)]
    rw [h2]
    unfold toUpperRune
    rw [if_pos (by omega), h1, Nat.add_sub_cancel, Char.ofNat_toNat]
  · rfl

theorem toUpperRune_upperRune (c : Char) : toUpperRune (upperRune c) = toUpperRune c := by
  unfold upperRune
  split
  · rename_i h
    have h1 : (Char.ofNat (c.toNat - 32)).toNat = c.toNat - 32 :=
      toNat_ofNat_small _ (by omega)
    have h2 : toUpperRune c = Char.ofNat (c.toNat - 32) := by
      unfold toUpperRune
      rw [if_pos h]
    rw [h2]
    unfold toUpperRune
    rw [if_neg (by omega), if_neg (by omega), if_neg (by omega)]
  · rfl

theorem ToUpper_lowerASCII (address : String) : ToUpper (lowerASCII address) = ToUpper address := by
  simp [ToUpper, lowerASCII, List.map_map, Function.comp_def, toUpperRune_lowerRune]

theorem ToUpper_upperASCII (address : String) : ToUpper (upperASCII address) = ToUpper address := by
  simp [ToUpper, upperASCII, List.map_map, Function.comp_def, toUpperRune_upperRune]

theorem hexDigits_append (a s : String) : hexDigits (a ++ s) = hexDigits a ++ hexDigits s := by
  simp [hexDigits, String.data_append]

theorem specOui_append (a s : String) (h : 6 ≤ hexCount a) : specOui (a ++ s) = specOui a := by
  unfold specOui
  rw [hexDigits_append, List.take_append_of_le_length (by rw [hexDigits_length]; exact h)]

theorem hexCount_append (a s : String) : hexCount (a ++ s) = hexCount a + hexCount s := by
  simp [hexCount, String.data_append]

/-! ## Theorems: `Query` on a Loaded registry -/

/-- C1: on a Loaded registry, for an address holding at least 6 hex digits,
`Query` reads the map at the normalised 6-character prefix: when the prefix is
a key it returns the stored Organization and a nil error, and when it is not a
key it fails with the error text "Assignment not found for" followed by the
prefix. -/
theorem query_lookup (env : Env) (st : State) (address : String)
    (hl : st.loaded.IsSet = true) (h6 : 6 ≤ hexCount address) :
    (∀ org, st.ouis.get (specOui address) = some org →
        Query env address st = .ret (org, none) st) ∧
    (st.ouis.get (specOui address) = none →
        Query env address st =
          .ret (Organization.zero,
            some ("OUI Query|Find Assignment: Assignment not found for " ++ specOui address)) st) := by
  rw [query_loaded env address st hl, find_eq, if_neg (by omega)]
  constructor
  · intro org h
    rw [h]
  · intro h
    rw [h]
    rfl

/-- Witness for C1: a stored prefix is found, and the absent prefix FFFFFF is
reported as not found. -/
theorem query_lookup_witness :
    loadedState.loaded.IsSet = true ∧ 6 ≤ hexCount "aa:bb:cc:dd:ee:ff" ∧
    Query (envOf sampleTable) "aa:bb:cc:dd:ee:ff" loadedState
      = .ret (⟨"Acme", "1 Road"⟩, none) loadedState ∧
    Query (envOf sampleTable) "FFFFFF0000AA" loadedState
      = .ret (Organization.zero,
          some "OUI Query|Find Assignment: Assignment not found for FFFFFF") loadedState :=
  ⟨by decide, by decide,
    (query_lookup (envOf sampleTable) loadedState "aa:bb:cc:dd:ee:ff" (by decide) (by decide)).1
      ⟨"Acme", "1 Road"⟩ (by decide),
    (query_lookup (envOf sampleTable) loadedState "FFFFFF0000AA" (by decide) (by decide)).2
      (by decide)⟩

/-- C2: whenever upper-casing the address and keeping the characters in
`[0-9A-F]` leaves at least 6 elements, the prefix `Query` derives is the first
6 of them in input order; it has exactly 6 characters, all in `[0-9A-F]`. -/
theorem oui_first_six (address : String) (h : 6 ≤ (hexDigits address).length) :
    Query.oui address = ⟨(hexDigits address).take 6⟩ ∧
    (Query.oui address).length = 6 ∧ len (Query.oui address) = 6 ∧
    ∀ c ∈ (Query.oui address).data, isUpperHex c = true := by
  have he := oui_eq_specOui address
  refine ⟨he, ?_, ?_, ?_⟩
  · rw [he]
    show ((hexDigits address).take 6).length = 6
    rw [List.length_take]; omega
  · rw [len_oui, ← hexDigits_length]; omega
  · intro c hc
    rw [he] at hc
    exact hexDigits_hex address c (List.mem_of_mem_take hc)

/-- Witness for C2: "AA:BB:CC:DD:EE:FF" gives "AABBCC". -/
theorem oui_first_six_witness :
    6 ≤ (hexDigits "AA:BB:CC:DD:EE:FF").length ∧ Query.oui "AA:BB:CC:DD:EE:FF" = "AABBCC" :=
  ⟨by decide, (oui_first_six "AA:BB:CC:DD:EE:FF" (by decide)).1.trans (by decide)⟩

/-- C3: on a Loaded registry, an address with fewer than 6 hex digits makes
`Query` fail with the InvalidAddress error whose reported count is the number
of hex digits in the input; an address with 6 or more hex digits never makes
`Query` return an InvalidAddress error, whatever the count. -/
theorem query_invalid_address (env : Env) (st : State) (address : String)
    (hl : st.loaded.IsSet = true) :
    (hexCount address < 6 →
      Query env address st =
        .ret (Organization.zero,
          some ("OUI Query|Parse Address: Hex digits required: 6, found: "
            ++ toString (hexCount address))) st) ∧
    (6 ≤ hexCount address →
      ∀ r st1, Query env address st = .ret r st1 → ∀ n, r.2 ≠ some (errParseAddress n)) := by
  rw [query_loaded env address st hl, find_eq]
  constructor
  · intro h
    rw [if_pos h]
    rfl
  · intro h r st1 hq n
    rw [if_neg (by omega)] at hq
    injection hq with hr _
    subst hr
    cases hg : st.ouis.get (specOui address) with
    | none =>
      simp only []
      intro he
      exact errFind_ne_errParse _ _ (Option.some.inj he)
    | some org => simp

/-- Witness for C3: "AA-BB" is rejected with a reported count of 4. -/
theorem query_invalid_address_witness :
    loadedState.loaded.IsSet = true ∧ hexCount "AA-BB" < 6 ∧
    Query (envOf sampleTable) "AA-BB" loadedState =
      .ret (Organization.zero,
        some "OUI Query|Parse Address: Hex digits required: 6, found: 4") loadedState :=
  ⟨by decide, by decide,
    (query_invalid_address (envOf sampleTable) loadedState "AA-BB" (by decide)).1 (by decide)⟩

/-- C4: characters after the 6th hex digit are ignored: when `a` holds at
least 6 hex digits, `Query` on `a ++ s` returns what `Query` on `a` returns on
the same Loaded registry, for every `s`, hex digits included. -/
theorem query_ignores_tail (env : Env) (st : State) (a s : String)
    (hl : st.loaded.IsSet = true) (h6 : 6 ≤ hexCount a) :
    Query.oui (a ++ s) = Query.oui a ∧ Query env (a ++ s) st = Query env a st := by
  have h6s : ¬ hexCount (a ++ s) < 6 := by rw [hexCount_append]; omega
  constructor
  · rw [oui_eq_specOui, oui_eq_specOui, specOui_append a s h6]
  · rw [query_loaded env (a ++ s) st hl, query_loaded env a st hl, find_eq, find_eq,
      if_neg h6s, if_neg (by omega), specOui_append a s h6]

/-- Witness for C4: "AABBCC" followed by "DDEE" normalises to "AABBCC". -/
theorem query_ignores_tail_witness :
    loadedState.loaded.IsSet = true ∧ 6 ≤ hexCount "AABBCC" ∧
    Query.oui ("AABBCC" ++ "DDEE") = "AABBCC" ∧
    Query (envOf sampleTable) ("AABBCC" ++ "DDEE") loadedState
      = Query (envOf sampleTable) "AABBCC" loadedState :=
  ⟨by decide, by decide,
    (query_ignores_tail (envOf sampleTable) loadedState "AABBCC" "DDEE"
      (by decide) (by decide)).1.trans (by decide),
    (query_ignores_tail (envOf sampleTable) loadedState "AABBCC" "DDEE"
      (by decide) (by decide)).2⟩

/-- C5: normalisation is case-insensitive: lower-casing or upper-casing every
ASCII letter of the address changes neither the derived prefix nor the count
of hex digits, so on a Loaded registry `Query` returns the same result for the
address, its lower-cased form and its upper-cased form. -/
theorem query_case_insensitive (env : Env) (st : State) (address : String)
    (hl : st.loaded.IsSet = true) :
    Query.oui (lowerASCII address) = Query.oui address ∧
    Query.oui (upperASCII address) = Query.oui address ∧
    Query env (lowerASCII address) st = Query env address st ∧
    Query env (upperASCII address) st = Query env address st := by
  have h1 : Query.oui (lowerASCII address) = Query.oui address := by
    unfold Query.oui; rw [ToUpper_lowerASCII]
  have h2 : Query.oui (upperASCII address) = Query.oui address := by
    unfold Query.oui; rw [ToUpper_upperASCII]
  refine ⟨h1, h2, ?_, ?_⟩
  · rw [query_loaded env _ st hl, query_loaded env _ st hl]
    unfold Query.find
    rw [h1]
  · rw [query_loaded env _ st hl, query_loaded env _ st hl]
    unfold Query.find
    rw [h2]

/-- Witness for C5: "aabbcc" and its upper-cased form "AABBCC" both normalise
to "AABBCC". -/
theorem query_case_insensitive_witness :
    loadedState.loaded.IsSet = true ∧ upperASCII "aabbcc" = "AABBCC" ∧
    Query.oui "aabbcc" = "AABBCC" ∧ Query.oui (upperASCII "aabbcc") = "AABBCC" ∧
    Query (envOf sampleTable) (upperASCII "aabbcc") loadedState
      = Query (envOf sampleTable) "aabbcc" loadedState :=
  ⟨by decide, by decide, by decide,
    (query_case_insensitive (envOf sampleTable) loadedState "aabbcc" (by decide)).2.1.trans
      (by decide),
    (query_case_insensitive (envOf sampleTable) loadedState "aabbcc" (by decide)).2.2.2⟩

/-! ## Theorems: `Download` always ends -/

/-- The copy loop never runs out of rounds when given more rounds than the
body has bytes. -/
theorem Download.copy_fuel (fuel : Nat) (writtenBytes totalBytes : Int) (src : Bytes)
    (srcErr : Option String) (out : Bytes) (h : src.length < fuel) :
    Download.copy fuel writtenBytes totalBytes src srcErr out ≠ .fuelOut := by
  induction fuel generalizing writtenBytes src out with
  | zero => omega
  | succ n ih =>
    unfold Download.copy
    by_cases hw : writtenBytes < totalBytes
    · rw [if_pos hw]
      unfold CopyN
      by_cases hc : (List.take 1024 src).length = 1024
      · simp only [hc, if_true]
        apply ih
        rw [List.length_take] at hc
        rw [List.length_drop]
        omega
      · simp only [hc, if_false]
        cases srcErr <;> simp
    · rw [if_neg hw]
      simp

/-- The call `Download` either returns or panics; it never hangs. -/
theorem download_ends (env : Env) (st : State) : Download env st ≠ .spin := by
  unfold Download
  split
  · simp
  · split
    · simp
    · rename_i res _
      split
      · simp
      · simp
      · rename_i hf
        exact absurd hf (Download.copy_fuel _ _ _ _ _ _ (Nat.lt_succ_self _))

/-! ## Theorems: the map -/

theorem get_set_self (m : OuiMap) (k : String) (v : Organization) : (m.set k v).get k = some v := by
  simp [OuiMap.set, OuiMap.get, List.lookup_cons]

theorem lookup_filter_ne (m : OuiMap) (k k1 : String) (h : k1 ≠ k) :
    List.lookup k1 (m.filter (fun p => p.1 != k)) = List.lookup k1 m := by
  induction m with
  | nil => rfl
  | cons p ps ih =>
    obtain ⟨a, b⟩ := p
    by_cases ha : a = k
    · subst ha
      have hk : (k1 == a) = false := by simpa using h
      simp [List.filter_cons, List.lookup_cons, hk, ih]
    · have hne : (a != k) = true := by simpa using ha
      simp only [List.filter_cons, hne, if_true, List.lookup_cons, ih]

theorem get_set_ne (m : OuiMap) (k k1 : String) (v : Organization) (h : k1 ≠ k) :
    (m.set k v).get k1 = m.get k1 := by
  have hk : (k1 == k) = false := by simpa using h
  simp only [OuiMap.set, OuiMap.get, List.lookup_cons, hk]
  exact lookup_filter_ne m k k1 h

/-- The map after storing the given rows in order. -/
theorem foldl_get_notin (post : List RawRecord) (m : OuiMap) (k : String)
    (h : ∀ q ∈ post, q.key ≠ k) :
    (post.foldl (fun acc r => acc.set r.key r.org) m).get k = m.get k := by
  induction post generalizing m with
  | nil => rfl
  | cons q qs ih =>
    rw [List.foldl_cons, ih _ (fun x hx => h x (List.mem_cons_of_mem q hx))]
    exact get_set_ne m q.key k q.org (fun e => h q (List.mem_cons_self q qs) e.symm)

theorem foldl_get_last (pre post : List RawRecord) (r : RawRecord) (m : OuiMap)
    (h : ∀ q ∈ post, q.key ≠ r.key) :
    ((pre ++ r :: post).foldl (fun acc r => acc.set r.key r.org) m).get r.key = some r.org := by
  rw [List.foldl_append, List.foldl_cons, foldl_get_notin post _ r.key h, get_set_self]

theorem foldl_get_some (rows : List RawRecord) (m : OuiMap) (k : String) (org : Organization)
    (h : (rows.foldl (fun acc r => acc.set r.key r.org) m).get k = some org) :
    (∃ r ∈ rows, r.key = k ∧ org = r.org) ∨ m.get k = some org := by
  induction rows generalizing m with
  | nil => exact Or.inr h
  | cons q qs ih =>
    rw [List.foldl_cons] at h
    rcases ih _ h with ⟨r, hr, hk, ho⟩ | h2
    · exact Or.inl ⟨r, List.mem_cons_of_mem q hr, hk, ho⟩
    · by_cases hq : k = q.key
      · subst hq
        rw [get_set_self] at h2
        exact Or.inl ⟨q, List.mem_cons_self q qs, rfl, (Option.some.inj h2).symm⟩
      · rw [get_set_ne m q.key k q.org hq] at h2
        exact Or.inr h2

theorem foldl_get_isSome (rows : List RawRecord) (m : OuiMap) (k : String)
    (h : (∃ r ∈ rows, r.key = k) ∨ (m.get k).isSome = true) :
    ((rows.foldl (fun acc r => acc.set r.key r.org) m).get k).isSome = true := by
  induction rows generalizing m with
  | nil =>
    rcases h with ⟨r, hr, _⟩ | h
    · cases hr
    · exact h
  | cons q qs ih =>
    rw [List.foldl_cons]
    apply ih
    by_cases hq : k = q.key
    · right; subst hq; rw [get_set_self]; rfl
    · rcases h with ⟨r, hr, hk⟩ | h
      · rcases List.mem_cons.mp hr with e | hmem
        · subst e; exact absurd hk.symm hq
        · exact Or.inl ⟨r, hmem, hk⟩
      · right; rw [get_set_ne m q.key k q.org hq]; exact h

/-! ## Theorems: `Load` -/

theorem fourFields_shape (r : RawRecord) (h : r.fourFields) :
    r.err = none ∧ ∃ a b c d, r.fields = [a, b, c, d] := by
  refine ⟨h.1, ?_⟩
  have hl := h.2
  match hf : r.fields, hl with
  | [a, b, c, d], _ => exact ⟨a, b, c, d, rfl⟩

/-- With four expected fields, rows of four fields are all stored, in order. -/
theorem rows_fourFields (rows : List RawRecord) (m : OuiMap)
    (h : ∀ r ∈ rows, r.fourFields) :
    Load.rows rows 4 m = .done (rows.foldl (fun acc r => acc.set r.key r.org) m) := by
  induction rows generalizing m with
  | nil => rfl
  | cons q qs ih =>
    obtain ⟨he, a, b, c, d, hf⟩ := fourFields_shape q (h q (List.mem_cons_self q qs))
    have hk : q.key = b := by simp [RawRecord.key, hf]
    have ho : q.org = ⟨TrimSpace c, TrimSpace d⟩ := by simp [RawRecord.org, hf]
    unfold Load.rows
    simp only [Reader.Read, he, hf, Option.map_none', List.length_cons, List.length_nil]
    simp only [List.foldl_cons, hk, ho]
    exact ih _ (fun r hr => h r (List.mem_cons_of_mem q hr))

/-- Reading the header of a table whose first record lexes cleanly. -/
theorem read_header (header : RawRecord) (rows : List RawRecord) (he : header.err = none) :
    Reader.Read (NewReader (header :: rows)) = ((header.fields, none), ⟨header.fields.length, rows⟩) := by
  simp [Reader.Read, NewReader, he]

/-- A clean header of four fields followed by rows of four fields: `Load.parse`
stores every row, sets `loaded` and clears `loading`. -/
theorem parse_fourFields (header : RawRecord) (rows : List RawRecord) (st : State)
    (hh : header.fourFields) (hr : ∀ r ∈ rows, r.fourFields) :
    Load.parse (header :: rows) st =
      .ret none { st with ouis := rows.foldl (fun acc r => acc.set r.key r.org) st.ouis,
                          loaded := ⟨1⟩, loading := ⟨0⟩ } := by
  unfold Load.parse
  rw [read_header header rows hh.1]
  simp only [hh.2, ne_eq, not_true_eq_false, if_false, Nat.cast_ofNat]
  rw [rows_fourFields rows st.ouis hr]
  rfl

/-- A clean header whose field count is not 4: `Load.parse` returns the
column-count error and leaves the state as it was. -/
theorem parse_bad_header (header : RawRecord) (rest : List RawRecord) (st : State)
    (he : header.err = none) (hn : header.fields.length ≠ 4) :
    Load.parse (header :: rest) st = .ret (some (errInvalidCsv header.fields.length)) st := by
  unfold Load.parse
  rw [read_header header rest he]
  simp only [ne_eq, hn, not_false_eq_true, if_true]

theorem download_frame (env : Env) (st st1 : State) (u : Unit)
    (h : Download env st = .ret u st1) :
    st1.ouis = st.ouis ∧ st1.loaded = st.loaded ∧ st1.loading = st.loading := by
  unfold Download at h
  split at h
  · cases h
  · split at h
    · cases h
    · split at h
      · injection h with _ hs
        subst hs
        exact ⟨rfl, rfl, rfl⟩
      · cases h
      · cases h

/-- Opening the file never touches the map or the flags. -/
theorem openFile_frame (env : Env) (st st1 : State) (v : Except String Bytes)
    (h : Load.openFile env st = .ret v st1) :
    st1.ouis = st.ouis ∧ st1.loaded = st.loaded ∧ st1.loading = st.loading := by
  unfold Load.openFile at h
  split at h
  · injection h with _ hs; subst hs; exact ⟨rfl, rfl, rfl⟩
  · injection h with _ hs; subst hs; exact ⟨rfl, rfl, rfl⟩
  · split at h
    · rename_i u st2 hd
      have hf := download_frame env st st2 u hd
      split at h
      all_goals (injection h with _ hs; subst hs; exact hf)
    · cases h
    · cases h

/-- What `Load` does on a state that is neither loaded nor loading, when the file opens. -/
theorem load_reads (env : Env) (st st1 : State) (table : List RawRecord)
    (hl : st.loaded.IsSet = false) (hg : st.loading.IsSet = false)
    (hr : Load.reads env st table st1) :
    Load env st = Load.parse table st1 ∧ st1.ouis = st.ouis ∧ st1.loaded = st.loaded := by
  obtain ⟨content, ho, hc⟩ := hr
  have hf := openFile_frame env _ st1 _ ho
  refine ⟨?_, hf.1, hf.2.1⟩
  unfold Load
  simp only [hl, hg, Bool.false_eq_true, if_false]
  rw [ho]
  simp only [hc]

theorem errReadRow_ne_errInvalidCsv (e : String) (n : Nat) : errReadRow e ≠ errInvalidCsv n := by
  intro h
  have h2 := congrArg String.data h
  simp only [errReadRow, errInvalidCsv, String.data_append] at h2
  simp at h2

/-- C6: for a table with a clean 4-field header and data rows of 4 fields
each, `Load` from an empty registry succeeds, and the resulting map has as its
keys exactly the `field[1]` values of the data rows (verbatim; the header adds
none), each key holding the trimmed `field[2]` and `field[3]` of a data row
with that key. -/
theorem load_mapping (env : Env) (st st1 : State) (header : RawRecord) (rows : List RawRecord)
    (hl : st.loaded.IsSet = false) (hg : st.loading.IsSet = false) (hempty : st.ouis = [])
    (hr : Load.reads env st (header :: rows) st1)
    (hh : header.fourFields) (hrows : ∀ r ∈ rows, r.fourFields) :
    ∃ st2, Load env st = .ret none st2 ∧
      (∀ k, (st2.ouis.get k).isSome = true ↔ ∃ r ∈ rows, r.fields.get? 1 = some k) ∧
      (∀ k org, st2.ouis.get k = some org →
        ∃ r ∈ rows, r.fields.get? 1 = some k ∧
          ∃ name address, r.fields.get? 2 = some name ∧ r.fields.get? 3 = some address ∧
            org = ⟨TrimSpace name, TrimSpace address⟩) := by
  obtain ⟨hload, ho, _⟩ := load_reads env st st1 (header :: rows) hl hg hr
  rw [parse_fourFields header rows st1 hh hrows, ho, hempty] at hload
  have hkey : ∀ r ∈ rows, ∀ k, r.fields.get? 1 = some k ↔ r.key = k := by
    intro r hr k
    obtain ⟨_, a, b, c, d, hf⟩ := fourFields_shape r (hrows r hr)
    simp [RawRecord.key, hf]
  refine ⟨_, hload, ?_, ?_⟩
  · intro k
    constructor
    · intro hs
      obtain ⟨org, hg⟩ := Option.isSome_iff_exists.mp hs
      rcases foldl_get_some rows [] k org hg with ⟨r, hr, hk, _⟩ | hn
      · exact ⟨r, hr, (hkey r hr k).mpr hk⟩
      · cases hn
    · rintro ⟨r, hr, hk⟩
      exact foldl_get_isSome rows [] k (Or.inl ⟨r, hr, (hkey r hr k).mp hk⟩)
  · intro k org hg
    rcases foldl_get_some rows [] k org hg with ⟨r, hr, hk, ho⟩ | hn
    · obtain ⟨_, a, b, c, d, hf⟩ := fourFields_shape r (hrows r hr)
      refine ⟨r, hr, (hkey r hr k).mpr hk, c, d, ?_, ?_, ?_⟩
      · simp [hf]
      · simp [hf]
      · rw [ho]; simp [RawRecord.org, hf]
    · cases hn

/-- Witness for C6: the header and the row
`["MA-L","001122"," Example Corp "," 123 Main St "]` load into the single
entry "001122" with name "Example Corp" and address "123 Main St". -/
theorem load_mapping_witness :
    coldState.loaded.IsSet = false ∧ coldState.loading.IsSet = false ∧ coldState.ouis = [] ∧
    Load.reads (envOf [sampleHeader, exampleRow]) coldState [sampleHeader, exampleRow] loadingState ∧
    sampleHeader.fourFields ∧ (∀ r ∈ [exampleRow], r.fourFields) ∧
    (∃ st2, Load (envOf [sampleHeader, exampleRow]) coldState = .ret none st2 ∧
      (∀ k, (st2.ouis.get k).isSome = true ↔ ∃ r ∈ [exampleRow], r.fields.get? 1 = some k) ∧
      (∀ k org, st2.ouis.get k = some org →
        ∃ r ∈ [exampleRow], r.fields.get? 1 = some k ∧
          ∃ name address, r.fields.get? 2 = some name ∧ r.fields.get? 3 = some address ∧
            org = ⟨TrimSpace name, TrimSpace address⟩)) ∧
    Load (envOf [sampleHeader, exampleRow]) coldState =
      .ret none ⟨[("001122", ⟨"Example Corp", "123 Main St"⟩)], ⟨1⟩, ⟨0⟩, some []⟩ :=
  ⟨by decide, by decide, rfl, ⟨[], rfl, rfl⟩, by decide, by decide,
    load_mapping (envOf [sampleHeader, exampleRow]) coldState loadingState sampleHeader
      [exampleRow] (by decide) (by decide) rfl ⟨[], rfl, rfl⟩ (by decide) (by decide),
    rfl⟩

/-- C7: duplicate prefixes are resolved last-row-wins: in a table with a clean
4-field header and data rows of 4 fields, if `r` is the last data row carrying
its `field[1]` (no row after it has the same one), then after the successful
`Load` the entry for that prefix holds the trimmed name and address of `r`,
whatever earlier rows with the same prefix said and whatever the map held
before. -/
theorem load_last_row_wins (env : Env) (st st1 : State) (header r : RawRecord)
    (pre post : List RawRecord)
    (hl : st.loaded.IsSet = false) (hg : st.loading.IsSet = false)
    (hr : Load.reads env st (header :: (pre ++ r :: post)) st1)
    (hh : header.fourFields) (hrows : ∀ q ∈ pre ++ r :: post, q.fourFields)
    (hlast : ∀ q ∈ post, q.fields.get? 1 ≠ r.fields.get? 1) :
    ∃ st2, Load env st = .ret none st2 ∧
      ∃ key name address, r.fields.get? 1 = some key ∧ r.fields.get? 2 = some name ∧
        r.fields.get? 3 = some address ∧
        st2.ouis.get key = some ⟨TrimSpace name, TrimSpace address⟩ := by
  obtain ⟨hload, _, _⟩ := load_reads env st st1 _ hl hg hr
  rw [parse_fourFields header _ st1 hh hrows] at hload
  obtain ⟨_, a, b, c, d, hf⟩ := fourFields_shape r (hrows r (by simp))
  have hk : r.key = b := by simp [RawRecord.key, hf]
  have hpost : ∀ q ∈ post, q.key ≠ r.key := by
    intro q hq hqk
    obtain ⟨_, a1, b1, c1, d1, hf1⟩ := fourFields_shape q (hrows q (by simp [hq]))
    apply hlast q hq
    have : b1 = b := by simpa [RawRecord.key, hf, hf1] using hqk
    simp [hf, hf1, this]
  refine ⟨_, hload, b, c, d, by simp [hf], by simp [hf], by simp [hf], ?_⟩
  have h := foldl_get_last pre post r st1.ouis hpost
  rw [hk] at h
  simpa [RawRecord.org, hf] using h

/-- Witness for C7: in `sampleTable` the rows `exampleRow` and `secondRow` share
the prefix "001122"; the entry holds the values of `secondRow`. -/
theorem load_last_row_wins_witness :
    coldState.loaded.IsSet = false ∧ coldState.loading.IsSet = false ∧
    Load.reads (envOf sampleTable) coldState
      (sampleHeader :: ([exampleRow] ++ secondRow :: [acmeRow])) loadingState ∧
    exampleRow.fields.get? 1 = secondRow.fields.get? 1 ∧
    (∃ st2, Load (envOf sampleTable) coldState = .ret none st2 ∧
      ∃ key name address, secondRow.fields.get? 1 = some key ∧
        secondRow.fields.get? 2 = some name ∧ secondRow.fields.get? 3 = some address ∧
        st2.ouis.get key = some ⟨TrimSpace name, TrimSpace address⟩) ∧
    Load (envOf sampleTable) coldState = .ret none loadedState ∧
    loadedState.ouis.get "001122" = some ⟨"Second Corp", "9 High St"⟩ :=
  ⟨by decide, by decide, ⟨[], rfl, rfl⟩, by decide,
    load_last_row_wins (envOf sampleTable) coldState loadingState sampleHeader secondRow
      [exampleRow] [acmeRow] (by decide) (by decide) ⟨[], rfl, rfl⟩ (by decide) (by decide)
      (by decide),
    rfl, by decide⟩

/-- C8: when the header lexes cleanly but its field count `n` is not 4, `Load`
fails with the error text "Columns required: 4, found: n", the map is left as
it was and `loaded` is not set; when the header has exactly 4 fields `Load`
never returns that error, whatever `n`. -/
theorem load_header_count (env : Env) (st st1 : State) (header : RawRecord)
    (rest : List RawRecord)
    (hl : st.loaded.IsSet = false) (hg : st.loading.IsSet = false)
    (hr : Load.reads env st (header :: rest) st1) (he : header.err = none) :
    (header.fields.length ≠ 4 →
      Load env st =
        .ret (some ("OUI Load|Invalid CSV: Columns required: 4, found: "
          ++ toString header.fields.length)) st1 ∧
      st1.ouis = st.ouis ∧ st1.loaded.IsSet = false) ∧
    (header.fields.length = 4 →
      ∀ v st2, Load env st = .ret v st2 → ∀ n, v ≠ some (errInvalidCsv n)) := by
  obtain ⟨hload, ho, hld⟩ := load_reads env st st1 _ hl hg hr
  constructor
  · intro hn
    rw [hload, parse_bad_header header rest st1 he hn]
    exact ⟨rfl, ho, by rw [hld]; exact hl⟩
  · intro h4 v st2 hv n
    rw [hload] at hv
    unfold Load.parse at hv
    rw [read_header header rest he] at hv
    simp only [h4, ne_eq, not_true_eq_false, if_false] at hv
    split at hv
    · injection hv with hv1 _
      subst hv1
      intro hc
      exact errReadRow_ne_errInvalidCsv _ _ (Option.some.inj hc)
    · cases hv
    · injection hv with hv1 _
      subst hv1
      simp

/-- Witness for C8: a 3-field header and a 5-field header are both rejected
with their field count in the error, and nothing is stored. -/
theorem load_header_count_witness :
    coldState.loaded.IsSet = false ∧ coldState.loading.IsSet = false ∧
    (Load (envOf [⟨1, ["a", "b", "c"], none⟩, exampleRow]) coldState =
        .ret (some ("OUI Load|Invalid CSV: Columns required: 4, found: " ++ toString 3))
          loadingState ∧
      loadingState.ouis = coldState.ouis ∧ loadingState.loaded.IsSet = false) ∧
    Load (envOf [⟨1, ["a", "b", "c", "d", "e"], none⟩]) coldState =
      .ret (some "OUI Load|Invalid CSV: Columns required: 4, found: 5") loadingState :=
  ⟨by decide, by decide,
    (load_header_count (envOf [⟨1, ["a", "b", "c"], none⟩, exampleRow]) coldState loadingState
      ⟨1, ["a", "b", "c"], none⟩ [exampleRow] (by decide) (by decide) ⟨[], rfl, rfl⟩ rfl).1
      (by decide),
    rfl⟩

/-! ## Theorems: load errors and the load state -/

theorem loadText_ne_errParse (rest : String) (n : Nat) :
    "OUI Load|" ++ rest ≠ errParseAddress n := by
  intro h
  have h2 := congrArg String.data h
  simp only [errParseAddress, String.data_append] at h2
  simp at h2

theorem loadText_ne_errFind (rest p : String) : "OUI Load|" ++ rest ≠ errFindAssignment p := by
  intro h
  have h2 := congrArg String.data h
  simp only [errFindAssignment, String.data_append] at h2
  simp at h2

/-- What `Load.parse` leaves behind when it returns: on success `loaded` is
set and `loading` cleared; on failure the error text starts with "OUI Load|"
and both flags are as before. -/
theorem parse_ret_cases (input : List RawRecord) (st st1 : State) (v : Option String)
    (h : Load.parse input st = .ret v st1) :
    (v = none ∧ st1.loaded = ⟨1⟩ ∧ st1.loading = ⟨0⟩) ∨
    ((∃ rest, v = some ("OUI Load|" ++ rest)) ∧ st1.loaded = st.loaded ∧
      st1.loading = st.loading) := by
  unfold Load.parse at h
  split at h
  · injection h with hv hs
    subst hv; subst hs
    exact Or.inr ⟨⟨"CSV Read Header: " ++ _, by rw [← String.append_assoc]; rfl⟩, rfl, rfl⟩
  · split at h
    · injection h with hv hs
      subst hv; subst hs
      exact Or.inr ⟨⟨"Invalid CSV: Columns required: 4, found: " ++ _,
        by rw [← String.append_assoc]; rfl⟩, rfl, rfl⟩
    · split at h
      · injection h with hv hs
        subst hv; subst hs
        exact Or.inr ⟨⟨"CSV Read Row: " ++ _, by rw [← String.append_assoc]; rfl⟩, rfl, rfl⟩
      · cases h
      · injection h with hv hs
        subst hv; subst hs
        exact Or.inl ⟨rfl, rfl, rfl⟩

/-- What `Load` leaves behind when it returns from a state that is not
loaded: on success `loaded` is set and `loading` cleared; on failure the error
text starts with "OUI Load|" and `loaded` is as before. -/
theorem load_ret_cases (env : Env) (st st1 : State) (v : Option String)
    (hl : st.loaded.IsSet = false) (h : Load env st = .ret v st1) :
    (v = none ∧ st1.loaded = ⟨1⟩ ∧ st1.loading = ⟨0⟩) ∨
    ((∃ rest, v = some ("OUI Load|" ++ rest)) ∧ st1.loaded = st.loaded) := by
  unfold Load at h
  simp only [hl, Bool.false_eq_true, if_false] at h
  split at h
  · cases h
  · split at h
    · rename_i e st2 ho
      injection h with hv hs
      subst hv; subst hs
      exact Or.inr ⟨⟨"Open File: " ++ e, by rw [← String.append_assoc]; rfl⟩,
        (openFile_frame env _ _ _ ho).2.1⟩
    · rename_i content st2 ho
      rcases parse_ret_cases _ _ _ _ h with h1 | ⟨h1, h2, _⟩
      · exact Or.inl h1
      · exact Or.inr ⟨h1, h2.trans (openFile_frame env _ _ _ ho).2.1⟩
    · cases h
    · cases h

/-- A `Load` that returns an error started from a state that was not loaded. -/
theorem load_error_not_loaded (env : Env) (st st1 : State) (e : String)
    (h : Load env st = .ret (some e) st1) : st.loaded.IsSet = false := by
  cases hl : st.loaded.IsSet with
  | false => rfl
  | true =>
    unfold Load at h
    simp only [hl, if_true] at h
    cases h

/-- C9: when the load procedure fails with error `e` (which only happens on a
registry that is not Loaded), `Query` on that registry returns exactly `e`
together with the zero record and the state the failed load left, for every
address, short ones included; `e` is neither an InvalidAddress nor an
AssignmentNotFound error, so no normalisation result and no lookup shows. -/
theorem query_load_error (env : Env) (st st1 : State) (e : String)
    (h : Load env st = .ret (some e) st1) :
    st.loaded.IsSet = false ∧
    (∀ address, Query env address st = .ret (Organization.zero, some e) st1) ∧
    (∀ n, e ≠ errParseAddress n) ∧ (∀ p, e ≠ errFindAssignment p) := by
  have hl := load_error_not_loaded env st st1 e h
  refine ⟨hl, ?_, ?_, ?_⟩
  · intro address
    unfold Query
    simp only [hl, Bool.not_false, if_true]
    rw [h]
  · intro n
    rcases load_ret_cases env st st1 _ hl h with ⟨h1, _⟩ | ⟨⟨rest, h1⟩, _⟩
    · cases h1
    · rw [Option.some.inj h1]
      exact loadText_ne_errParse rest n
  · intro p
    rcases load_ret_cases env st st1 _ hl h with ⟨h1, _⟩ | ⟨⟨rest, h1⟩, _⟩
    · cases h1
    · rw [Option.some.inj h1]
      exact loadText_ne_errFind rest p

/-- Witness for C9: with a 3-field header the load fails, and `Query` on the
too-short address "AA-BB" returns the load error, not InvalidAddress. -/
theorem query_load_error_witness :
    Load (envOf [⟨1, ["a", "b", "c"], none⟩, exampleRow]) coldState =
      .ret (some "OUI Load|Invalid CSV: Columns required: 4, found: 3") loadingState ∧
    coldState.loaded.IsSet = false ∧
    Query (envOf [⟨1, ["a", "b", "c"], none⟩, exampleRow]) "AA-BB" coldState =
      .ret (Organization.zero, some "OUI Load|Invalid CSV: Columns required: 4, found: 3")
        loadingState :=
  ⟨rfl, by decide,
    (query_load_error (envOf [⟨1, ["a", "b", "c"], none⟩, exampleRow]) coldState loadingState
      "OUI Load|Invalid CSV: Columns required: 4, found: 3" rfl).2.1 "AA-BB"⟩

/-- Along sequential `Load` and `Query` calls from process start, `loaded`
set implies `loading` clear. -/
theorem later_init_inv (file : Option Bytes) (st : State) (h : Later (State.init file) st) :
    st.loaded.IsSet = true → st.loading.IsSet = false := by
  induction h with
  | refl => intro hc; cases hc
  | @load s1 s2 env v _ hstep ih =>
    intro hs2
    cases hl : s1.loaded.IsSet with
    | true =>
      unfold Load at hstep
      simp only [hl, if_true] at hstep
      injection hstep with _ hs
      subst hs
      exact ih hl
    | false =>
      rcases load_ret_cases env s1 s2 v hl hstep with ⟨_, _, h3⟩ | ⟨_, h2⟩
      · rw [h3]; rfl
      · rw [h2, hl] at hs2; cases hs2
  | @query s1 s2 env address r _ hstep ih =>
    intro hs2
    cases hl : s1.loaded.IsSet with
    | true =>
      rw [query_loaded env address s1 hl] at hstep
      injection hstep with _ hs
      subst hs
      exact ih hl
    | false =>
      unfold Query at hstep
      simp only [hl, Bool.not_false, if_true] at hstep
      split at hstep
      · rename_i err s3 hld
        injection hstep with _ hs
        subst hs
        rcases load_ret_cases env s1 s3 _ hl hld with ⟨h1, _⟩ | ⟨_, h2⟩
        · cases h1
        · rw [h2, hl] at hs2; cases hs2
      · rename_i s3 hld
        injection hstep with _ hs
        subst hs
        rcases load_ret_cases env s1 s3 _ hl hld with ⟨_, _, h3⟩ | ⟨⟨_, h1⟩, _⟩
        · rw [h3]; rfl
        · cases h1
      · cases hstep
      · cases hstep

/-- On a Loaded registry `Load` returns `nil` and the very same state. -/
theorem load_loaded (env : Env) (st : State) (h : st.loaded.IsSet = true) :
    Load env st = .ret none st := by
  simp [Load, h]

/-- Sequential `Load` and `Query` calls on a Loaded registry never change it. -/
theorem later_loaded (st st1 : State) (hl : st.loaded.IsSet = true) (h : Later st st1) :
    st1 = st := by
  induction h with
  | refl => rfl
  | load env v _ hstep ih =>
    subst ih
    rw [load_loaded env _ hl] at hstep
    injection hstep with _ hs
    exact hs.symm
  | query env address r _ hstep ih =>
    subst ih
    rw [query_loaded env address _ hl] at hstep
    injection hstep with _ hs
    exact hs.symm

/-- C10: Loaded is absorbing and frozen.  Once a `Load` has returned `nil` in
a run of sequential calls from process start, `loaded` is set and `loading` is
clear; every later `Load` returns `nil` with the state (map, flags and file)
untouched and whatever the environment would answer, hence without I/O;
every later `Query`, whether it finds a record or fails with InvalidAddress or
AssignmentNotFound, returns with the state untouched; and no sequence of later
`Load` and `Query` calls reaches any other state. -/
theorem loaded_absorbing (file : Option Bytes) (env : Env) (st0 st : State)
    (hreach : Later (State.init file) st0) (hload : Load env st0 = .ret none st) :
    st.loaded.IsSet = true ∧ st.loading.IsSet = false ∧
    (∀ env1, Load env1 st = .ret none st) ∧
    (∀ env1 address, Query env1 address st = .ret (Query.find st.ouis address) st) ∧
    (∀ st1, Later st st1 → st1 = st) := by
  have hflags : st.loaded.IsSet = true ∧ st.loading.IsSet = false := by
    cases hl : st0.loaded.IsSet with
    | true =>
      rw [load_loaded env st0 hl] at hload
      injection hload with _ hs
      subst hs
      exact ⟨hl, later_init_inv file _ hreach hl⟩
    | false =>
      rcases load_ret_cases env st0 st _ hl hload with ⟨_, h2, h3⟩ | ⟨⟨_, h1⟩, _⟩
      · rw [h2, h3]; exact ⟨rfl, rfl⟩
      · cases h1
  exact ⟨hflags.1, hflags.2, fun env1 => load_loaded env1 st hflags.1,
    fun env1 address => query_loaded env1 address st hflags.1,
    fun st1 h => later_loaded st st1 hflags.1 h⟩

/-- Witness for C10: loading `sampleTable` at process start gives `loadedState`,
on which a second `Load` (here with an environment whose file would fail to
open) and queries of all three kinds return without changing anything. -/
theorem loaded_absorbing_witness :
    Later (State.init (some [])) coldState ∧
    Load (envOf sampleTable) coldState = .ret none loadedState ∧
    loadedState.loaded.IsSet = true ∧ loadedState.loading.IsSet = false ∧
    Load ⟨some "permission denied", none, .error "offline", none, fun _ => []⟩ loadedState
      = .ret none loadedState ∧
    Query (envOf []) "00:11:22:33:44:55" loadedState
      = .ret (⟨"Second Corp", "9 High St"⟩, none) loadedState ∧
    Query (envOf []) "AA-BB" loadedState
      = .ret (Organization.zero,
          some "OUI Query|Parse Address: Hex digits required: 6, found: 4") loadedState ∧
    Query (envOf []) "FFFFFF0000AA" loadedState
      = .ret (Organization.zero,
          some "OUI Query|Find Assignment: Assignment not found for FFFFFF") loadedState :=
  ⟨Later.refl, rfl,
    (loaded_absorbing (some []) (envOf sampleTable) coldState loadedState Later.refl rfl).1,
    (loaded_absorbing (some []) (envOf sampleTable) coldState loadedState Later.refl rfl).2.1,
    (loaded_absorbing (some []) (envOf sampleTable) coldState loadedState Later.refl rfl).2.2.1 _,
    ((loaded_absorbing (some []) (envOf sampleTable) coldState loadedState
      Later.refl rfl).2.2.2.1 _ _).trans (by decide),
    ((loaded_absorbing (some []) (envOf sampleTable) coldState loadedState
      Later.refl rfl).2.2.2.1 _ _).trans (by decide),
    ((loaded_absorbing (some []) (envOf sampleTable) coldState loadedState
      Later.refl rfl).2.2.2.1 _ _).trans (by decide)⟩

/-! ## Theorems: after a failed load -/

/-- A `Load` that returns an error leaves `loaded` clear and `loading` set. -/
theorem load_error_flags (env : Env) (st st1 : State) (e : String)
    (h : Load env st = .ret (some e) st1) :
    st1.loaded.IsSet = false ∧ st1.loading.IsSet = true := by
  have hl := load_error_not_loaded env st st1 e h
  unfold Load at h
  simp only [hl, Bool.false_eq_true, if_false] at h
  split at h
  · cases h
  · split at h
    · rename_i e1 st2 ho
      injection h with _ hs
      subst hs
      obtain ⟨_, h2, h3⟩ := openFile_frame env _ _ _ ho
      rw [h2, h3]
      exact ⟨hl, rfl⟩
    · rename_i content st2 ho
      obtain ⟨_, h2, h3⟩ := openFile_frame env _ _ _ ho
      rcases parse_ret_cases _ _ _ _ h with ⟨h1, _⟩ | ⟨_, h4, h5⟩
      · cases h1
      · rw [h4, h5, h2, h3]
        exact ⟨hl, rfl⟩
    · cases h
    · cases h

/-- With `loaded` clear and `loading` set, a sequential `Load` or `Query`
never returns: it waits in the loop of line 88. -/
theorem load_stuck (env : Env) (st : State) (address : String)
    (hl : st.loaded.IsSet = false) (hg : st.loading.IsSet = true) :
    Load env st = .spin ∧ Query env address st = .spin := by
  have h : Load env st = .spin := by simp [Load, hl, hg]
  exact ⟨h, by simp [Query, hl, h]⟩

/-- After any `Load` that returned an error, every sequential `Load` and
`Query` on the state it left never returns. -/
theorem load_error_then_stuck (env env1 : Env) (st st1 : State) (e address : String)
    (h : Load env st = .ret (some e) st1) :
    Load env1 st1 = .spin ∧ Query env1 address st1 = .spin :=
  load_stuck env1 st1 address (load_error_flags env st st1 e h).1
    (load_error_flags env st st1 e h).2

/-- C11 (the code does not do this): each of the four kinds of load error, open
failure, header read failure, wrong header column count and data-row failure,
is returned with `loading` still set and `loaded` clear; on the state so left
the next sequential `Load` and the next `Query` never return, even though the
file now on offer is well formed. -/
theorem load_error_not_rolled_back :
    Load envOpenFails coldState =
      .ret (some "OUI Load|Open File: open oui.csv: permission denied") loadingState ∧
    Load (envOf []) coldState = .ret (some "OUI Load|CSV Read Header: EOF") loadingState ∧
    Load (envOf [⟨1, ["a", "b", "c"], none⟩]) coldState =
      .ret (some "OUI Load|Invalid CSV: Columns required: 4, found: 3") loadingState ∧
    Load (envOf [sampleHeader, brokenRow]) coldState =
      .ret (some "OUI Load|CSV Read Row: record on line 3: parse error") loadingState ∧
    loadingState.loaded.IsSet = false ∧ loadingState.loading.IsSet = true ∧
    Load (envOf sampleTable) loadingState = .spin ∧
    Query (envOf sampleTable) "AA:BB:CC:DD:EE:FF" loadingState = .spin :=
  ⟨rfl, rfl, rfl, rfl, rfl, rfl, rfl, rfl⟩

/-! ## Theorems: the record returned with an error -/

theorem find_error_zero (ouis : OuiMap) (address : String) (org : Organization) (e : String)
    (h : Query.find ouis address = (org, some e)) : org = Organization.zero := by
  unfold Query.find at h
  simp only at h
  split at h
  · exact (Prod.mk.inj h).1.symm
  · split at h
    · exact (Prod.mk.inj h).1.symm
    · cases (Prod.mk.inj h).2

/-- C17: whenever `Query` returns a non-nil error, be it a load error,
InvalidAddress or AssignmentNotFound, the Organization returned with it is the
zero record: `Name` and `Address` are both empty. -/
theorem query_error_zero (env : Env) (address : String) (st st1 : State)
    (org : Organization) (e : String)
    (h : Query env address st = .ret (org, some e) st1) :
    org = Organization.zero ∧ org.Name = "" ∧ org.Address = "" := by
  have hz : org = Organization.zero := by
    unfold Query at h
    split at h
    · split at h
      · injection h with hv _
        exact (Prod.mk.inj hv).1.symm
      · injection h with hv _
        exact find_error_zero _ _ _ _ hv
      · cases h
      · cases h
    · injection h with hv _
      exact find_error_zero _ _ _ _ hv
  subst hz
  exact ⟨rfl, rfl, rfl⟩

/-- Witness for C17: on a registry holding two records, the unknown prefix
FFFFFF is answered with an error and the zero record, not with a stored one. -/
theorem query_error_zero_witness :
    Query (envOf sampleTable) "FFFFFF0000AA" loadedState =
      .ret (Organization.zero,
        some "OUI Query|Find Assignment: Assignment not found for FFFFFF") loadedState ∧
    (Organization.zero = Organization.zero ∧ Organization.zero.Name = "" ∧
      Organization.zero.Address = "") :=
  ⟨by decide,
    query_error_zero (envOf sampleTable) "FFFFFF0000AA" loadedState loadedState
      Organization.zero "OUI Query|Find Assignment: Assignment not found for FFFFFF"
      (by decide)⟩

/-! ## Theorems: a data row that is not accepted -/

theorem rowError_of_not_fourFields (r : RawRecord) (h : ¬ r.fourFields) :
    ∃ e, r.rowError = some e := by
  unfold RawRecord.rowError
  cases he : r.err with
  | some e => exact ⟨e, rfl⟩
  | none =>
    have hn : r.fields.length ≠ 4 := fun h4 => h ⟨he, h4⟩
    exact ⟨errFieldCount r.line, by simp [hn]⟩

/-- With four expected fields, `reader.Read()` hands a rejected row's error
to the loop. -/
theorem read_rowError (bad : RawRecord) (rest : List RawRecord) (e : String)
    (h : bad.rowError = some e) :
    (Reader.Read ⟨4, bad :: rest⟩).1.2 = some (.other e) := by
  unfold RawRecord.rowError at h
  cases he : bad.err with
  | some e1 =>
    rw [he] at h
    simp only [Option.some.injEq] at h
    subst h
    simp [Reader.Read, he]
  | none =>
    rw [he] at h
    by_cases hn : bad.fields.length = 4
    · simp [hn] at h
    · simp only [ne_eq, hn, not_false_eq_true, if_true, Option.some.injEq] at h
      subst h
      have hc : ¬ ((bad.fields.length : Int) = 4) := by exact_mod_cast hn
      simp [Reader.Read, he, hc]

/-- The row loop stores the accepted rows in order and stops at the first
rejected one with its error; the rows stored so far stay in the map. -/
theorem rows_until_error (pre rest : List RawRecord) (bad : RawRecord) (m : OuiMap) (e : String)
    (hpre : ∀ r ∈ pre, r.fourFields) (hbad : bad.rowError = some e) :
    Load.rows (pre ++ bad :: rest) 4 m
      = .error e (pre.foldl (fun acc r => acc.set r.key r.org) m) := by
  induction pre generalizing m with
  | nil =>
    have hr := read_rowError bad rest e hbad
    simp only [List.nil_append, List.foldl_nil]
    unfold Load.rows
    split
    · rename_i heq
      rw [heq] at hr
      cases hr
    · rename_i heq
      rw [heq] at hr
      simp only [Option.some.injEq, GoError.other.injEq] at hr
      rw [hr]
    · rename_i heq
      rw [heq] at hr
      cases hr
  | cons q qs ih =>
    obtain ⟨he, a, b, c, d, hf⟩ := fourFields_shape q (hpre q (List.mem_cons_self q qs))
    have hk : q.key = b := by simp [RawRecord.key, hf]
    have ho : q.org = ⟨TrimSpace c, TrimSpace d⟩ := by simp [RawRecord.org, hf]
    rw [List.cons_append]
    unfold Load.rows
    simp only [Reader.Read, he, hf, Option.map_none', List.length_cons, List.length_nil]
    simp only [List.foldl_cons, hk, ho]
    exact ih _ (fun r hr => hpre r (List.mem_cons_of_mem q hr))

/-- With four expected fields the row loop never indexes beyond a record. -/
theorem rows_no_panic (input : List RawRecord) (m : OuiMap) (msg : String) (ouis : OuiMap) :
    Load.rows input 4 m ≠ .panic msg ouis := by
  induction input generalizing m with
  | nil => simp [Load.rows]
  | cons q qs ih =>
    by_cases hq : q.fourFields
    · obtain ⟨he, a, b, c, d, hf⟩ := fourFields_shape q hq
      unfold Load.rows
      simp only [Reader.Read, he, hf, Option.map_none', List.length_cons, List.length_nil]
      exact ih _
    · obtain ⟨e, he⟩ := rowError_of_not_fourFields q hq
      have h := rows_until_error [] qs q m e (by simp) he
      simp only [List.nil_append, List.foldl_nil] at h
      rw [h]
      simp

/-- After a clean 4-field header, `Load.parse` returns: it never panics. -/
theorem parse_no_panic (header : RawRecord) (rows : List RawRecord) (st : State)
    (hh : header.fourFields) (msg : String) (st2 : State) :
    Load.parse (header :: rows) st ≠ .panic msg st2 := by
  unfold Load.parse
  rw [read_header header rows hh.1]
  simp only [hh.2, ne_eq, not_true_eq_false, if_false, Nat.cast_ofNat]
  split
  · simp
  · rename_i e ouis heq
    exact absurd heq (rows_no_panic rows st.ouis e ouis)
  · simp

/-- After a clean 4-field header and accepted rows, a rejected row ends
`Load.parse` with the row error; the accepted rows stay in the map and the
flags stay as they were. -/
theorem parse_row_error (header bad : RawRecord) (pre rest : List RawRecord) (st : State)
    (e : String) (hh : header.fourFields) (hpre : ∀ r ∈ pre, r.fourFields)
    (hbad : bad.rowError = some e) :
    Load.parse (header :: (pre ++ bad :: rest)) st =
      .ret (some (errReadRow e))
        { st with ouis := pre.foldl (fun acc r => acc.set r.key r.org) st.ouis } := by
  unfold Load.parse
  rw [read_header header _ hh.1]
  simp only [hh.2, ne_eq, not_true_eq_false, if_false, Nat.cast_ofNat]
  rw [rows_until_error pre rest bad st.ouis e hpre hbad]

/-- C12 as stated fails: after the header and one well-formed row, a 3-field
row makes `Load` return the "CSV Read Row" error, yet the map, empty before,
now holds the entry of the first row; so it is not true that every failed
`Load` leaves the map as it was. -/
theorem load_row_failure_keeps_rows :
    Load (envOf [sampleHeader, exampleRow, shortRow, acmeRow]) coldState =
      .ret (some "OUI Load|CSV Read Row: record on line 3: wrong number of fields")
        ⟨[("001122", ⟨"Example Corp", "123 Main St"⟩)], ⟨0⟩, ⟨1⟩, some []⟩ ∧
    ¬ (∀ e st2, Load (envOf [sampleHeader, exampleRow, shortRow, acmeRow]) coldState
          = .ret (some e) st2 → st2.ouis = coldState.ouis) := by
  have h : Load (envOf [sampleHeader, exampleRow, shortRow, acmeRow]) coldState =
      .ret (some "OUI Load|CSV Read Row: record on line 3: wrong number of fields")
        ⟨[("001122", ⟨"Example Corp", "123 Main St"⟩)], ⟨0⟩, ⟨1⟩, some []⟩ := rfl
  refine ⟨h, fun hall => ?_⟩
  have hc := hall _ _ h
  simp [coldState, State.init] at hc

/-- C12 as amended: for a table with a clean 4-field header in which a data
row is rejected (it fails to lex, or lexes into a number of fields other than
4) after well-formed rows, `Load` returns the "CSV Read Row" error and
`loaded` is not set; the rows read before the failure are kept: the map is
the map from before with those rows written in file order, so each of their
prefixes is a key. -/
theorem load_row_failure (env : Env) (st st1 : State) (header bad : RawRecord)
    (pre rest : List RawRecord) (e : String)
    (hl : st.loaded.IsSet = false) (hg : st.loading.IsSet = false)
    (hr : Load.reads env st (header :: (pre ++ bad :: rest)) st1)
    (hh : header.fourFields) (hpre : ∀ r ∈ pre, r.fourFields)
    (hbad : bad.rowError = some e) :
    ∃ st2, Load env st = .ret (some ("OUI Load|CSV Read Row: " ++ e)) st2 ∧
      st2.loaded.IsSet = false ∧
      st2.ouis = pre.foldl (fun acc r => acc.set r.key r.org) st.ouis ∧
      (∀ r ∈ pre, (st2.ouis.get r.key).isSome = true) := by
  obtain ⟨hload, ho, hld⟩ := load_reads env st st1 _ hl hg hr
  rw [parse_row_error header bad pre rest st1 e hh hpre hbad] at hload
  refine ⟨_, hload, ?_, ?_, ?_⟩
  · show st1.loaded.IsSet = false
    rw [hld]; exact hl
  · show pre.foldl (fun acc r => acc.set r.key r.org) st1.ouis = _
    rw [ho]
  · intro r hrm
    show ((pre.foldl (fun acc r => acc.set r.key r.org) st1.ouis).get r.key).isSome = true
    exact foldl_get_isSome pre st1.ouis r.key (Or.inl ⟨r, hrm, rfl⟩)

/-- Witness for C12 as amended: header, one good row, then a 3-field row. -/
theorem load_row_failure_witness :
    coldState.loaded.IsSet = false ∧ coldState.loading.IsSet = false ∧
    Load.reads (envOf [sampleHeader, exampleRow, shortRow, acmeRow]) coldState
      (sampleHeader :: ([exampleRow] ++ shortRow :: [acmeRow])) loadingState ∧
    shortRow.rowError = some "record on line 3: wrong number of fields" ∧
    ∃ st2, Load (envOf [sampleHeader, exampleRow, shortRow, acmeRow]) coldState =
        .ret (some ("OUI Load|CSV Read Row: " ++ "record on line 3: wrong number of fields"))
          st2 ∧
      st2.loaded.IsSet = false ∧
      st2.ouis = [exampleRow].foldl (fun acc r => acc.set r.key r.org) coldState.ouis ∧
      (∀ r ∈ [exampleRow], (st2.ouis.get r.key).isSome = true) :=
  ⟨by decide, by decide, ⟨[], rfl, rfl⟩, by decide,
    load_row_failure (envOf [sampleHeader, exampleRow, shortRow, acmeRow]) coldState
      loadingState sampleHeader shortRow [exampleRow] [acmeRow]
      "record on line 3: wrong number of fields" (by decide) (by decide) ⟨[], rfl, rfl⟩
      (by decide) (by decide) (by decide)⟩

/-- C16: row indexing in `Load` is safe.  Once a clean 4-field header has been
read the reader expects 4 fields; a record it then returns without error has
exactly 4 fields, so `line[1]`, `line[2]`, `line[3]` are in range and `Load`
never panics; a data row that lexes into fewer or more than 4 fields makes
`Load` return the "CSV Read Row" error with the field-count text, and that row
is not stored. -/
theorem load_index_safe (env : Env) (st st1 : State) (header : RawRecord)
    (rows : List RawRecord)
    (hl : st.loaded.IsSet = false) (hg : st.loading.IsSet = false)
    (hr : Load.reads env st (header :: rows) st1) (hh : header.fourFields) :
    (Reader.Read (NewReader (header :: rows))).2.FieldsPerRecord = 4 ∧
    (∀ input fields rd, Reader.Read ⟨4, input⟩ = ((fields, none), rd) →
      fields.length = 4 ∧ rd.FieldsPerRecord = 4 ∧
      (fields.get? 1).isSome = true ∧ (fields.get? 2).isSome = true ∧
      (fields.get? 3).isSome = true) ∧
    (∀ msg st2, Load env st ≠ .panic msg st2) ∧
    (∀ pre bad rest, rows = pre ++ bad :: rest → (∀ r ∈ pre, r.fourFields) →
      bad.err = none → bad.fields.length ≠ 4 →
      ∃ st2, Load env st =
          .ret (some ("OUI Load|CSV Read Row: " ++ errFieldCount bad.line)) st2 ∧
        st2.ouis = pre.foldl (fun acc r => acc.set r.key r.org) st.ouis) := by
  refine ⟨?_, ?_, ?_, ?_⟩
  · rw [read_header header rows hh.1]
    simp [hh.2]
  · intro input fields rd hread
    have hlen : fields.length = 4 ∧ rd.FieldsPerRecord = 4 := by
      cases input with
      | nil => simp [Reader.Read] at hread
      | cons raw rest =>
        simp only [Reader.Read] at hread
        simp only [show (4 : Int) > 0 by decide, if_true] at hread
        split at hread
        · simp at hread
        · rename_i hc
          have hp := Prod.mk.inj hread
          have hq := Prod.mk.inj hp.1
          have hnone : Option.map GoError.other raw.err = none := hq.2
          have h4 : (raw.fields.length : Int) = 4 := by
            by_contra hne
            exact hc ⟨hne, hnone⟩
          rw [← hq.1, ← hp.2]
          exact ⟨by exact_mod_cast h4, rfl⟩
    refine ⟨hlen.1, hlen.2, ?_, ?_, ?_⟩ <;>
    · match fields, hlen.1 with
      | [a, b, c, d], _ => rfl
  · intro msg st2
    rw [(load_reads env st st1 _ hl hg hr).1]
    exact parse_no_panic header rows st1 hh msg st2
  · intro pre bad rest hrows hpre hbe hbn
    subst hrows
    obtain ⟨hload, ho, _⟩ := load_reads env st st1 _ hl hg hr
    have hbad : bad.rowError = some (errFieldCount bad.line) := by
      simp [RawRecord.rowError, hbe, hbn]
    rw [parse_row_error header bad pre rest st1 _ hh hpre hbad] at hload
    exact ⟨_, hload, by show pre.foldl _ st1.ouis = _; rw [ho]⟩

/-- Witness for C16: after the header and one good row, the 3-field row of
line 3 is answered with the field-count error and is not stored. -/
theorem load_index_safe_witness :
    coldState.loaded.IsSet = false ∧ coldState.loading.IsSet = false ∧
    Load.reads (envOf [sampleHeader, exampleRow, shortRow, acmeRow]) coldState
      (sampleHeader :: [exampleRow, shortRow, acmeRow]) loadingState ∧
    sampleHeader.fourFields ∧
    (∃ st2, Load (envOf [sampleHeader, exampleRow, shortRow, acmeRow]) coldState =
        .ret (some ("OUI Load|CSV Read Row: " ++ errFieldCount shortRow.line)) st2 ∧
      st2.ouis = [exampleRow].foldl (fun acc r => acc.set r.key r.org) coldState.ouis) ∧
    errFieldCount shortRow.line = "record on line 3: wrong number of fields" :=
  ⟨by decide, by decide, ⟨[], rfl, rfl⟩, by decide,
    (load_index_safe (envOf [sampleHeader, exampleRow, shortRow, acmeRow]) coldState
      loadingState sampleHeader [exampleRow, shortRow, acmeRow] (by decide) (by decide)
      ⟨[], rfl, rfl⟩ (by decide)).2.2.2 [exampleRow] shortRow [acmeRow] rfl (by decide)
      rfl (by decide),
    by decide⟩

/-! ## Theorems: what `Download` writes -/

/-- When the announced length is not below the bytes still to come and the
body ends cleanly, the copy loop writes all of them and ends normally. -/
theorem copy_all_clean (fuel : Nat) (writtenBytes totalBytes : Int) (src out : Bytes)
    (hfuel : src.length < fuel) (hle : writtenBytes + src.length ≤ totalBytes) :
    Download.copy fuel writtenBytes totalBytes src none out = .done (out ++ src) := by
  induction fuel generalizing writtenBytes src out with
  | zero => omega
  | succ n ih =>
    unfold Download.copy
    by_cases hw : writtenBytes < totalBytes
    · rw [if_pos hw]
      unfold CopyN
      by_cases hc : (List.take 1024 src).length = 1024
      · have hlen : 1024 ≤ src.length := by
          rw [List.length_take] at hc; omega
        simp only [hc, if_true]
        have hd : (List.drop 1024 src).length = src.length - 1024 := List.length_drop 1024 src
        rw [ih (writtenBytes + ((1024 : Nat) : Int)) (List.drop 1024 src)
          (out ++ List.take 1024 src) (by omega) (by omega)]
        simp only [List.append_assoc, List.take_append_drop]
      · have hlen : src.length < 1024 := by
          rw [List.length_take] at hc; omega
        have ht : List.take 1024 src = src := List.take_of_length_le (by omega)
        have h1 : ¬ src.length = 1024 := by omega
        simp only [ht, h1, if_false]
    · rw [if_neg hw]
      have h0 : src.length = 0 := by omega
      have hnil : src = [] := List.length_eq_zero.mp h0
      subst hnil
      simp

/-- When the body breaks off with an error before the announced length is
reached, the copy loop writes the bytes it got and panics with that error. -/
theorem copy_all_error (fuel : Nat) (writtenBytes totalBytes : Int) (src out : Bytes)
    (e : String) (hfuel : src.length < fuel)
    (hlt : writtenBytes + src.length < totalBytes) :
    Download.copy fuel writtenBytes totalBytes src (some e) out = .panic e (out ++ src) := by
  induction fuel generalizing writtenBytes src out with
  | zero => omega
  | succ n ih =>
    unfold Download.copy
    have hw : writtenBytes < totalBytes := by omega
    rw [if_pos hw]
    unfold CopyN
    by_cases hc : (List.take 1024 src).length = 1024
    · have hlen : 1024 ≤ src.length := by
        rw [List.length_take] at hc; omega
      simp only [hc, if_true]
      have hd : (List.drop 1024 src).length = src.length - 1024 := List.length_drop 1024 src
      rw [ih (writtenBytes + ((1024 : Nat) : Int)) (List.drop 1024 src)
        (out ++ List.take 1024 src) (by omega) (by omega)]
      simp only [List.append_assoc, List.take_append_drop]
    · have hlen : src.length < 1024 := by
        rw [List.length_take] at hc; omega
      have ht : List.take 1024 src = src := List.take_of_length_le (by omega)
      have h1 : ¬ src.length = 1024 := by omega
      simp only [ht, h1, if_false]

/-- With the file absent, a body that ends cleanly and is announced with at
least its real length is written to the new file byte for byte. -/
theorem download_faithful (env : Env) (st : State) (res : Response)
    (hfile : st.file = none) (hc : env.createErr = none) (hget : env.httpGet = .ok res)
    (herr : res.bodyErr = none) (hlen : (res.Body.length : Int) ≤ res.ContentLength) :
    Download env st = .ret () { st with file := some res.Body } := by
  unfold Download
  simp only [hc, hget, hfile, Option.getD_none]
  rw [herr, copy_all_clean _ 0 res.ContentLength res.Body [] (Nat.lt_succ_self _) (by omega)]
  simp [overwrite]

/-- With the file absent, a body that breaks off with an error before the
announced length is reached makes `Download` panic with that error. -/
theorem download_copy_panics (env : Env) (st : State) (res : Response) (e : String)
    (hfile : st.file = none) (hc : env.createErr = none) (hget : env.httpGet = .ok res)
    (herr : res.bodyErr = some e) (hlen : (res.Body.length : Int) < res.ContentLength) :
    Download env st = .panic e { st with file := some res.Body } := by
  unfold Download
  simp only [hc, hget, hfile, Option.getD_none]
  rw [herr, copy_all_error _ 0 res.ContentLength res.Body [] e (Nat.lt_succ_self _)
    (by omega)]
  simp [overwrite]

/-- C15 (the code does not do this): for a response of unknown length
(`ContentLength == -1`) with the 3-byte body 65, 66, 67, `Download` returns
normally having written nothing: the new file is empty, and the `Load` that
called it reads an empty file and fails on the header.  The same body
announced with its length 3 is written byte for byte. -/
theorem download_unknown_length_writes_nothing :
    Download envUnknownLength absentState = .ret () ⟨[], ⟨0⟩, ⟨0⟩, some []⟩ ∧
    Load envUnknownLength absentState =
      .ret (some "OUI Load|CSV Read Header: EOF") ⟨[], ⟨0⟩, ⟨1⟩, some []⟩ ∧
    Download envKnownLength absentState = .ret () ⟨[], ⟨0⟩, ⟨0⟩, some [65, 66, 67]⟩ ∧
    Load envKnownLength absentState =
      .ret none ⟨loadedState.ouis, ⟨1⟩, ⟨0⟩, some [65, 66, 67]⟩ :=
  ⟨rfl, rfl, rfl, rfl⟩

/-! ## Theorems: source failures during a load -/

/-- With the file absent, `Load` on a state that is neither loaded nor loading
does what `Download` does after `loading` is set, when that is a panic. -/
theorem load_of_download_panic (env : Env) (st st1 : State) (e : String)
    (hl : st.loaded.IsSet = false) (hg : st.loading.IsSet = false) (hfile : st.file = none)
    (hd : Download env { st with loading := st.loading.Set } = .panic e st1) :
    Load env st = .panic e st1 := by
  have hd1 : Download env ⟨st.ouis, st.loaded, st.loading.Set, none⟩ = .panic e st1 := by
    rw [← hfile]; exact hd
  unfold Load
  simp only [hl, hg, Bool.false_eq_true, if_false]
  unfold Load.openFile
  simp only [osOpen, hfile, hd1]

/-- A panic in `Load` is a panic of the `Query` that called it. -/
theorem query_of_load_panic (env : Env) (address : String) (st st1 : State) (e : String)
    (hl : st.loaded.IsSet = false) (h : Load env st = .panic e st1) :
    Query env address st = .panic e st1 := by
  unfold Query
  simp only [hl, Bool.not_false, if_true]
  rw [h]

theorem download_file_some (env : Env) (st st1 : State) (u : Unit)
    (h : Download env st = .ret u st1) : ∃ content, st1.file = some content := by
  unfold Download at h
  split at h
  · cases h
  · split at h
    · cases h
    · split at h
      · injection h with _ hs
        subst hs
        exact ⟨_, rfl⟩
      · cases h
      · cases h

/-- C13 as stated fails: with `oui.csv` absent, a failure to create the cache
file, a failed HTTP GET and a response body that breaks off each make `Load`
panic; `Query` panics with it; no error value is returned. -/
theorem load_source_failure_panics :
    Load envCreateFails absentState = .panic "open oui.csv: permission denied" absentLoading ∧
    Load envGetFails absentState = .panic "Get: no route to host" ⟨[], ⟨0⟩, ⟨1⟩, some []⟩ ∧
    Load envCopyFails absentState = .panic "unexpected EOF" ⟨[], ⟨0⟩, ⟨1⟩, some [1, 2, 3]⟩ ∧
    Query envCreateFails "AA:BB:CC:DD:EE:FF" absentState
      = .panic "open oui.csv: permission denied" absentLoading ∧
    ¬ (∃ err st1, Load envCreateFails absentState = .ret (some err) st1) := by
  refine ⟨rfl, rfl, rfl, rfl, ?_⟩
  rintro ⟨err, st1, h⟩
  have hp : Load envCreateFails absentState
      = .panic "open oui.csv: permission denied" absentLoading := rfl
  rw [hp] at h
  cases h

/-- C13 as amended: on a registry that is neither loaded nor loading, when
`oui.csv` is absent and creating the cache file fails, or the HTTP GET fails,
or the response body breaks off with an error before its announced length,
`Download` panics with that failure and `Load` and `Query` end in the same
panic instead of returning.  The source failures that are returned as an error
value, with the text "OUI Load|Open File: " before the cause, are those of
`os.Open`: on an existing file, and on the file just downloaded. -/
theorem load_source_failure (env : Env) (st : State) (address : String)
    (hl : st.loaded.IsSet = false) (hg : st.loading.IsSet = false) :
    (∀ e, st.file = none → env.createErr = some e →
      Load env st = .panic e { st with loading := ⟨1⟩ } ∧
      Query env address st = .panic e { st with loading := ⟨1⟩ }) ∧
    (∀ e, st.file = none → env.createErr = none → env.httpGet = .error e →
      Load env st = .panic e { st with loading := ⟨1⟩, file := some [] } ∧
      Query env address st = .panic e { st with loading := ⟨1⟩, file := some [] }) ∧
    (∀ res e, st.file = none → env.createErr = none → env.httpGet = .ok res →
      res.bodyErr = some e → (res.Body.length : Int) < res.ContentLength →
      Load env st = .panic e { st with loading := ⟨1⟩, file := some res.Body } ∧
      Query env address st = .panic e { st with loading := ⟨1⟩, file := some res.Body }) ∧
    (∀ content e, st.file = some content → env.openErr = some e →
      Load env st = .ret (some ("OUI Load|Open File: " ++ e)) { st with loading := ⟨1⟩ }) ∧
    (∀ st1 e, st.file = none → Download env { st with loading := ⟨1⟩ } = .ret () st1 →
      env.reopenErr = some e →
      Load env st = .ret (some ("OUI Load|Open File: " ++ e)) st1) := by
  refine ⟨?_, ?_, ?_, ?_, ?_⟩
  · intro e hfile hc
    have hd : Download env { st with loading := st.loading.Set }
        = .panic e { st with loading := ⟨1⟩ } := by
      simp [Download, hc, atomicBool.Set]
    have hload := load_of_download_panic env st _ e hl hg hfile hd
    exact ⟨hload, query_of_load_panic env address st _ e hl hload⟩
  · intro e hfile hc hget
    have hd : Download env { st with loading := st.loading.Set }
        = .panic e { st with loading := ⟨1⟩, file := some [] } := by
      simp [Download, hc, hget, hfile, atomicBool.Set]
    have hload := load_of_download_panic env st _ e hl hg hfile hd
    exact ⟨hload, query_of_load_panic env address st _ e hl hload⟩
  · intro res e hfile hc hget herr hlen
    have hd : Download env { st with loading := st.loading.Set }
        = .panic e { st with loading := ⟨1⟩, file := some res.Body } :=
      download_copy_panics env { st with loading := st.loading.Set } res e hfile hc hget
        herr hlen
    have hload := load_of_download_panic env st _ e hl hg hfile hd
    exact ⟨hload, query_of_load_panic env address st _ e hl hload⟩
  · intro content e hfile hopen
    unfold Load
    simp only [hl, hg, Bool.false_eq_true, if_false]
    unfold Load.openFile
    simp only [osOpen, hfile, hopen]
    rfl
  · intro st1 e hfile hd hre
    obtain ⟨content, hc⟩ := download_file_some env _ st1 () hd
    unfold Load
    simp only [hl, hg, Bool.false_eq_true, if_false]
    unfold Load.openFile
    have hd2 : Download env ⟨st.ouis, st.loaded, st.loading.Set, none⟩ = .ret () st1 := by
      rw [← hfile]; exact hd
    simp only [osOpen, hfile, hd2, hc, hre]
    rfl

/-- Witness for C13 as amended: at process start without `oui.csv`, a cache
file that cannot be created makes `Load` and `Query` panic. -/
theorem load_source_failure_witness :
    absentState.loaded.IsSet = false ∧ absentState.loading.IsSet = false ∧
    absentState.file = none ∧ envCreateFails.createErr = some "open oui.csv: permission denied" ∧
    Load envCreateFails absentState
      = .panic "open oui.csv: permission denied" { absentState with loading := ⟨1⟩ } ∧
    Query envCreateFails "AA:BB:CC:DD:EE:FF" absentState
      = .panic "open oui.csv: permission denied" { absentState with loading := ⟨1⟩ } :=
  ⟨by decide, by decide, rfl, rfl,
    (load_source_failure envCreateFails absentState "AA:BB:CC:DD:EE:FF" (by decide)
      (by decide)).1 "open oui.csv: permission denied" rfl rfl⟩

/-! ## Theorems: goroutines entering `Load` -/

/-- C14 (the code does not do this): two goroutines call `Load` on an
Unloaded registry.  When each one tests `loaded` and `loading` before the other
has executed `loading.Set()`, both pass both tests and both reach the load
body: two loaders.  When the first goroutine gets as far as `loading.Set()`
before the second one tests `loading`, the second one waits and there is one
loader only. -/
theorem two_loaders_race :
    Conc.run [0, 0, 1, 1, 0, 1] ⟨coldState, [Pc.checkLoaded, Pc.checkLoaded]⟩
      = ⟨loadingState, [Pc.body, Pc.body]⟩ ∧
    (Conc.run [0, 0, 1, 1, 0, 1] ⟨coldState, [Pc.checkLoaded, Pc.checkLoaded]⟩).loaders = 2 ∧
    Conc.run [0, 0, 0, 1, 1] ⟨coldState, [Pc.checkLoaded, Pc.checkLoaded]⟩
      = ⟨loadingState, [Pc.body, Pc.wait]⟩ ∧
    (Conc.run [0, 0, 0, 1, 1] ⟨coldState, [Pc.checkLoaded, Pc.checkLoaded]⟩).loaders = 1 := by
  decide

end Oui
